import Mathlib

set_option exponentiation.threshold 2048

/-!
# ArtaleBroadcast: the relay in `src/artaleBG.js`

A shallow embedding of the three stateful parts of the relay and the properties
of them that the specification states.

* `WebhookQueue` (lines 23-61): the delivery queue.  `process()` is an `async`
  function, so an activation of it is suspended at each `await`; the embedding
  keeps the list of suspended activations explicitly and every event of the
  JavaScript event loop (a call of `enqueue`, the settling of a POST, the firing
  of a timer) is one atomic step.
* `getProfile` (lines 68-89): the profile cache, again split at its `await`.
* `connect` (lines 95-142): the reconnect timer and the message handler.

JavaScript values that reach the program (parsed JSON, header values) are
modelled by `JSVal`; Numbers are doubles (`JSNum`), with IEEE 754 rounding in
`parseFloat` and in the product, and with Number::toString.
-/

namespace ArtaleBG

/-! ## JavaScript numbers -/

/-- A JavaScript Number: NaN, the two infinities, or a finite double, given
by its exact value.  The two zeros are not told apart: this program cannot
observe the sign of a zero (ToString, ToBoolean, the `Map` key comparison
and the delay of a timer treat both alike). -/
inductive JSNum where
  | nan
  | posInf
  | negInf
  | fin (q : ℚ)

/-- Is `2 ^ e ≤ n / d`?  (`d` is positive.) -/
def pow2Le (e : Int) (n d : Nat) : Bool :=
  if 0 ≤ e then decide (d * 2 ^ e.toNat ≤ n) else decide (d ≤ n * 2 ^ (-e).toNat)

/-- The largest `e` with `lo ≤ e < hi` and `2 ^ e ≤ n / d`, by bisection;
`lo` when there is none. -/
def floorLog2 (n d : Nat) : Nat → Int → Int → Int
  | 0, lo, _ => lo
  | fuel + 1, lo, hi =>
    if hi - lo ≤ 1 then lo
    else
      let mid := (lo + hi) / 2
      if pow2Le mid n d then floorLog2 n d fuel mid hi else floorLog2 n d fuel lo mid

/-- The double nearest to the positive rational `n / d`, ties to the even
significand (IEEE 754 binary64, round to nearest even): `some (m, k)` stands
for `m * 2 ^ k`, with `m < 2 ^ 53` and `k ≥ -1074`; `none` is the overflow to
infinity. -/
def nearestDouble (n d : Nat) : Option (Nat × Int) :=
  if d * 2 ^ 1024 ≤ n then none
  else
    -- the binary exponent, not below that of the subnormal numbers
    let e := floorLog2 n d 12 (-1022) 1024
    -- the unit in the last place is `2 ^ k`
    let k := e - 52
    let num := if 0 ≤ k then n else n * 2 ^ (-k).toNat
    let den := if 0 ≤ k then d * 2 ^ k.toNat else d
    let m := num / den
    let r := num % den
    let m :=
      if 2 * r < den then m else if den < 2 * r then m + 1 else if m % 2 = 0 then m else m + 1
    if m = 2 ^ 53 then (if e = 1023 then none else some (2 ^ 52, k + 1))
    else some (m, k)

/-- The Number that a real value denotes: the value rounded to a double. -/
def roundDouble (q : ℚ) : JSNum :=
  if q = 0 then .fin 0
  else
    match nearestDouble q.num.natAbs q.den with
    | none => if q < 0 then .negInf else .posInf
    | some (m, k) => .fin ((if q < 0 then -1 else 1) * (m : ℚ) * 2 ^ k)

/-- Is `10 ^ e ≤ n / d`?  (`d` is positive.) -/
def pow10Le (e : Int) (n d : Nat) : Bool :=
  if 0 ≤ e then decide (d * 10 ^ e.toNat ≤ n) else decide (d ≤ n * 10 ^ (-e).toNat)

/-- The largest `e` with `lo ≤ e < hi` and `10 ^ e ≤ n / d`, by bisection. -/
def floorLog10 (n d : Nat) : Nat → Int → Int → Int
  | 0, lo, _ => lo
  | fuel + 1, lo, hi =>
    if hi - lo ≤ 1 then lo
    else
      let mid := (lo + hi) / 2
      if pow10Le mid n d then floorLog10 n d fuel mid hi else floorLog10 n d fuel lo mid

/-- Number::toString, step 5: the shortest digit string `s` (of `k` digits,
`k = 1, 2, ...`) and the exponent `n` such that `s * 10 ^ (n - k)` rounds to
the double `n / d`; of two such strings the one nearer to the double, and of
two equally near the even one.  `n0` is the number of digits of the integer
part of the double. -/
def shortestDigits (n d : Nat) (n0 : Int) : Nat → Nat → Nat × Int
  | 0, _ => (0, n0)
  | fuel + 1, k =>
    let scale := n0 - (k : Int)
    let num := if 0 ≤ scale then n else n * 10 ^ (-scale).toNat
    let den := if 0 ≤ scale then d * 10 ^ scale.toNat else d
    let sLo := num / den
    let r := num % den
    let sHi := sLo + 1
    let back (s : Nat) : Bool :=
      (if 0 ≤ scale then nearestDouble (s * 10 ^ scale.toNat) 1
        else nearestDouble s (10 ^ (-scale).toNat)) == nearestDouble n d
    let okLo := back sLo
    let okHi := back sHi
    let pickHi : Nat × Int := if sHi = 10 ^ k then (10 ^ (k - 1), n0 + 1) else (sHi, n0)
    if okLo && okHi then
      (if 2 * r < den then (sLo, n0) else if den < 2 * r then pickHi
        else if sLo % 2 = 0 then (sLo, n0) else pickHi)
    else if okLo then (sLo, n0)
    else if okHi then pickHi
    else shortestDigits n d n0 fuel (k + 1)

/-- A run of zeros. -/
def zeros (n : Nat) : String := String.mk (List.replicate n '0')

/-- Number::toString of the positive double `n / d` (steps 5 to 10). -/
def positiveToString (n d : Nat) : String :=
  let n0 := floorLog10 n d 11 (-324) 309 + 1
  let (s, e) := shortestDigits n d n0 17 1
  let ds := Nat.toDigits 10 s
  let k : Int := ds.length
  if k ≤ e ∧ e ≤ 21 then String.mk ds ++ zeros (e - k).toNat
  else if 0 < e ∧ e ≤ 21 then String.mk (ds.take e.toNat) ++ "." ++ String.mk (ds.drop e.toNat)
  else if -6 < e ∧ e ≤ 0 then "0." ++ zeros (-e).toNat ++ String.mk ds
  else
    let x := e - 1
    let es := (if x < 0 then "-" else "+") ++ String.mk (Nat.toDigits 10 x.natAbs)
    match ds with
    | [c] => String.mk [c] ++ "e" ++ es
    | c :: cs => String.mk [c] ++ "." ++ String.mk cs ++ "e" ++ es
    | [] => ""

namespace JSNum

/-- The operator `a * b`: the exact product, rounded. -/
def mul : JSNum → JSNum → JSNum
  | nan, _ => nan
  | _, nan => nan
  | fin a, fin b => roundDouble (a * b)
  | posInf, posInf => posInf
  | posInf, negInf => negInf
  | negInf, posInf => negInf
  | negInf, negInf => posInf
  | posInf, fin b => if 0 < b then posInf else if b < 0 then negInf else nan
  | negInf, fin b => if 0 < b then negInf else if b < 0 then posInf else nan
  | fin a, posInf => if 0 < a then posInf else if a < 0 then negInf else nan
  | fin a, negInf => if 0 < a then negInf else if a < 0 then posInf else nan

/-- ToBoolean of a Number: false for NaN and for zero. -/
def truthy : JSNum → Bool
  | nan => false
  | fin q => decide (q ≠ 0)
  | _ => true

/-- Number::toString, radix 10. -/
def toString : JSNum → String
  | nan => "NaN"
  | posInf => "Infinity"
  | negInf => "-Infinity"
  | fin q =>
    if q = 0 then "0"
    else if q < 0 then "-" ++ positiveToString q.num.natAbs q.den
    else positiveToString q.num.natAbs q.den

/-- SameValueZero on Numbers: NaN is the same as NaN. -/
def sameValueZero : JSNum → JSNum → Bool
  | nan, nan => true
  | posInf, posInf => true
  | negInf, negInf => true
  | fin a, fin b => decide (a = b)
  | _, _ => false

end JSNum

/-! ## JavaScript values -/

/-- A JavaScript value as produced by `JSON.parse` or read from a header map.
Objects are finite maps given as association lists (the first binding of a
key is the one that counts). -/
inductive JSVal where
  | undefined
  | null
  | bool (b : Bool)
  | num (n : JSNum)
  | str (s : String)
  | arr (items : List JSVal)
  | obj (fields : List (String × JSVal))

namespace JSVal

/-- ToBoolean: what `!v`, `v || w` and `v && w` test. -/
def truthy : JSVal → Bool
  | undefined => false
  | null => false
  | bool b => b
  | num n => n.truthy
  | str s => s != ""
  | arr _ => true
  | obj _ => true

/-- The operator `a || b`. -/
def or (a b : JSVal) : JSVal := if a.truthy then a else b

mutual
/-- ToString, as applied by a template literal and by `parseFloat`. -/
def render : JSVal → String
  | undefined => "undefined"
  | null => "null"
  | bool true => "true"
  | bool false => "false"
  | num n => n.toString
  | str s => s
  | arr items => renderItems items
  | obj _ => "[object Object]"
/-- The body of `Array.prototype.join(",")`: `undefined` and `null` items
are printed as the empty string. -/
def renderItems : List JSVal → String
  | [] => ""
  | v :: rest =>
    (match v with
      | undefined => ""
      | null => ""
      | _ => render v) ++ (if rest.isEmpty then "" else ",") ++ renderItems rest
end

/-- The first binding of `key` in an association list. -/
def lookupField (key : String) : List (String × JSVal) → Option JSVal
  | [] => none
  | (k, v) :: rest => if k = key then some v else lookupField key rest

/-- Does the value carry a property `key`?  Only objects do, for the keys this
program reads (`ProfileCode`, `Nickname`, `Text`, `Channel`, `timestamp`,
`data`, `profileImageUrl`): none of them is a property of a string, a number,
a boolean or an array. -/
def hasField (v : JSVal) (key : String) : Bool :=
  match v with
  | obj fields => (lookupField key fields).isSome
  | _ => false

/-- Property read `v.key` (also one binding of a destructuring pattern):
a TypeError on `undefined` and `null`, `undefined` when the property is
missing. -/
def getProp (v : JSVal) (key : String) : Except String JSVal :=
  match v with
  | undefined => .error "TypeError: cannot read properties of undefined"
  | null => .error "TypeError: cannot read properties of null"
  | obj fields => .ok ((lookupField key fields).getD undefined)
  | _ => .ok undefined

/-- Optional chaining `v?.key`. -/
def getPropOpt (v : JSVal) (key : String) : JSVal :=
  match v with
  | obj fields => (lookupField key fields).getD undefined
  | _ => undefined

/-- SameValueZero, the key comparison of `Map`.  Two objects (or arrays) that
come from two parses are two different references, so they never compare
equal. -/
def sameValueZero : JSVal → JSVal → Bool
  | undefined, undefined => true
  | null, null => true
  | bool a, bool b => a == b
  | num a, num b => a.sameValueZero b
  | str a, str b => a == b
  | _, _ => false

end JSVal

/-! ## `parseFloat` -/

/-- What the longest numeric prefix of a string denotes, before it is turned
into a number: nothing, an infinity, or `mantissa * 10 ^ exponent` with a
sign. -/
inductive StrDecimal where
  | notNumeric
  | infinity (negative : Bool)
  | decimal (negative : Bool) (mantissa : Nat) (exponent : Int)
  deriving DecidableEq

/-- StrWhiteSpaceChar: white space and line terminators. -/
def isStrWhiteSpace (c : Char) : Bool :=
  let n := c.toNat
  n == 9 || n == 10 || n == 11 || n == 12 || n == 13 || n == 32 || n == 160 ||
  n == 5760 || (8192 ≤ n && n ≤ 8202) || n == 8232 || n == 8233 || n == 8239 ||
  n == 8287 || n == 12288 || n == 65279

/-- The leading decimal digits of a list of characters, and what follows. -/
def spanDigits : List Char → List Char × List Char
  | [] => ([], [])
  | c :: cs =>
    if c.isDigit then
      let (ds, rest) := spanDigits cs
      (c :: ds, rest)
    else ([], c :: cs)

/-- The value of a list of decimal digits. -/
def digitsValue (ds : List Char) : Nat :=
  ds.foldl (fun acc c => 10 * acc + (c.toNat - 48)) 0

/-- ExponentPart: `e` or `E`, an optional sign, at least one digit.  When the
text does not start with a whole exponent part the exponent is 0 and the
text is left alone. -/
def exponentPart (cs : List Char) : Int :=
  match cs with
  | c :: rest =>
    if c = 'e' || c = 'E' then
      match rest with
      | '+' :: ds =>
        if (spanDigits ds).1.isEmpty then 0 else Int.ofNat (digitsValue (spanDigits ds).1)
      | '-' :: ds =>
        if (spanDigits ds).1.isEmpty then 0 else - Int.ofNat (digitsValue (spanDigits ds).1)
      | ds =>
        if (spanDigits ds).1.isEmpty then 0 else Int.ofNat (digitsValue (spanDigits ds).1)
    else 0
  | [] => 0

/-- StrUnsignedDecimalLiteral: `Infinity`, or digits with an optional
fraction, or a fraction alone, each with an optional exponent part; the
longest prefix that is one. -/
def unsignedLiteral (negative : Bool) (cs : List Char) : StrDecimal :=
  if "Infinity".toList.isPrefixOf cs then .infinity negative
  else
    let (intDigits, afterInt) := spanDigits cs
    match afterInt with
    | '.' :: afterDot =>
      let (fracDigits, afterFrac) := spanDigits afterDot
      if intDigits.isEmpty && fracDigits.isEmpty then .notNumeric
      else
        .decimal negative (digitsValue (intDigits ++ fracDigits))
          (exponentPart afterFrac - Int.ofNat fracDigits.length)
    | _ =>
      if intDigits.isEmpty then .notNumeric
      else .decimal negative (digitsValue intDigits) (exponentPart afterInt)

/-- The literal that `parseFloat` reads: leading white space is skipped, then
an optional sign, then the longest unsigned literal. -/
def strDecimalLiteral (s : String) : StrDecimal :=
  match s.toList.dropWhile isStrWhiteSpace with
  | '+' :: cs => unsignedLiteral false cs
  | '-' :: cs => unsignedLiteral true cs
  | cs => unsignedLiteral false cs

/-- The real number that a decimal literal denotes: the mantissa with its
sign, times `10 ^ exponent`. -/
def decimalValue (negative : Bool) (mantissa : Nat) (exponent : Int) : ℚ :=
  let m : Int := if negative then - Int.ofNat mantissa else Int.ofNat mantissa
  if 0 ≤ exponent then mkRat (m * 10 ^ exponent.toNat) 1
  else mkRat m (10 ^ (- exponent).toNat)

/-- The Number a literal denotes: its real value, rounded to a double. -/
def StrDecimal.toNum : StrDecimal → JSNum
  | .notNumeric => .nan
  | .infinity false => .posInf
  | .infinity true => .negInf
  | .decimal negative mantissa exponent => roundDouble (decimalValue negative mantissa exponent)

/-- The global `parseFloat(v)`: ToString, then the literal, then its value. -/
def parseFloat (v : JSVal) : JSNum := (strDecimalLiteral v.render).toNum

/-! ## Decimal numerals, as the specification of a numeric header -/

/-- The character of a decimal digit. -/
def digitChar (d : Fin 10) : Char := Char.ofNat (48 + d.val)

/-- A decimal numeral as it is written in a header: an optional minus sign,
the digits of the integer part, an optional point with the digits of the
fraction, an optional exponent (`e`, an optional minus sign, digits). -/
structure Numeral where
  negative : Bool
  intDigits : List (Fin 10)
  fracDigits : Option (List (Fin 10))
  exponent : Option (Bool × List (Fin 10))

/-- The natural number written by a list of digits, most significant first. -/
def digitsNat (ds : List (Fin 10)) : Nat := Nat.ofDigits 10 (ds.map Fin.val).reverse

namespace Numeral

/-- The characters of the fraction: the point and the digits. -/
def fracChars : Option (List (Fin 10)) → List Char
  | none => []
  | some fs => '.' :: fs.map digitChar

/-- The characters of the exponent. -/
def expChars : Option (Bool × List (Fin 10)) → List Char
  | none => []
  | some (false, ds) => 'e' :: ds.map digitChar
  | some (true, ds) => 'e' :: '-' :: ds.map digitChar

/-- The text of the numeral. -/
def text (n : Numeral) : String :=
  String.mk ((if n.negative then ['-'] else []) ++ n.intDigits.map digitChar ++
    fracChars n.fracDigits ++ expChars n.exponent)

/-- The exponent as an integer, 0 when there is none. -/
def expValue : Option (Bool × List (Fin 10)) → Int
  | none => 0
  | some (false, ds) => (digitsNat ds : Int)
  | some (true, ds) => - (digitsNat ds : Int)

/-- The real number the numeral stands for: the integer part plus the
fraction, times the power of ten, with the sign. -/
def value (n : Numeral) : ℚ :=
  (if n.negative then -1 else 1) *
    ((digitsNat n.intDigits : ℚ) +
      (digitsNat (n.fracDigits.getD []) : ℚ) / 10 ^ (n.fracDigits.getD []).length) *
    10 ^ expValue n.exponent

/-- The integer part and the exponent, when there is one, have digits. -/
def WellFormed (n : Numeral) : Prop :=
  n.intDigits ≠ [] ∧ ∀ e ∈ n.exponent, e.2 ≠ []

end Numeral

/-! ## `WebhookQueue` (lines 23-61) -/

/-- How the promise of `axios.post(DISCORD_WEBHOOK_URL, payload)` settles:
fulfilled, rejected with `err.response.status === 429` (with the value of
`err.response.headers["retry-after"]`, `undefined` when the header is not
there), or rejected in any other way (another status, or no response). -/
inductive PostResult where
  | fulfilled
  | rejected429 (retryAfterHeader : JSVal)
  | rejectedOther

/-- Did the POST succeed? -/
def PostResult.isFulfilled : PostResult → Bool
  | .fulfilled => true
  | _ => false

/-- Line 47: `parseFloat(err.response.headers["retry-after"] || 3)`. -/
def retryAfter (header : JSVal) : JSNum := parseFloat (header.or (.num (.fin 3)))

/-- An activation of `process()` suspended at one of its four `await`s,
with the local `payload` where it is still needed and the delay its timer
was armed with. -/
inductive Drain (P : Type) where
  /-- line 42: the POST of `payload` is in flight -/
  | posting (payload : P)
  /-- line 43: the POST succeeded, `setTimeout(res, this.retryDelay)` -/
  | pacing (ms : JSNum)
  /-- line 49: status 429, `setTimeout(res, retryAfter * 1000)`; `payload` is
  put back at line 50, after the wait -/
  | rateLimited (payload : P) (ms : JSNum)
  /-- line 54: another failure, `payload` was put back at line 53, then
  `setTimeout(res, this.retryDelay)` -/
  | backoff (ms : JSNum)

/-- The payload an activation holds in its local variable and has still to
deliver. -/
def Drain.held {P : Type} : Drain P → List P
  | .posting payload => [payload]
  | .rateLimited payload _ => [payload]
  | .pacing _ => []
  | .backoff _ => []

/-- The payload whose POST is in flight. -/
def Drain.inFlight {P : Type} : Drain P → List P
  | .posting payload => [payload]
  | _ => []

/-- An instance of the class: its three fields, the suspended activations
of `process()`, and a history of what has happened to it (the history is
never read by the code). -/
structure WebhookQueue (P : Type) where
  queue : List P
  sending : Bool
  retryDelay : JSNum
  /-- suspended activations of `process()` -/
  drains : List (Drain P)
  /-- history: the arguments of `enqueue`, in call order -/
  enqueued : List P
  /-- history: the payloads handed to `axios.post`, in call order -/
  attempts : List P
  /-- history: the payloads whose POST was fulfilled -/
  delivered : List P
  /-- history: how the POSTs settled -/
  outcomes : List PostResult

namespace WebhookQueue

variable {P : Type}

/-- The constructor (lines 24-28). -/
def new : WebhookQueue P :=
  { queue := [], sending := false, retryDelay := .fin 2000, drains := [],
    enqueued := [], attempts := [], delivered := [], outcomes := [] }

/-- From the test of the `while` (line 39) to the next suspension: with an
empty queue the loop ends and line 59 clears `sending`; otherwise the head is
shifted off and posted (lines 40-42). -/
def loop (q : WebhookQueue P) : WebhookQueue P × Option (Drain P) :=
  match q.queue with
  | [] => ({ q with sending := false }, none)
  | payload :: rest =>
    ({ q with queue := rest, attempts := q.attempts ++ [payload] }, some (.posting payload))

/-- A call of `process()` (lines 35-42), up to its first `await`. -/
def process (q : WebhookQueue P) : WebhookQueue P :=
  if q.sending || q.queue.length == 0 then q
  else
    match ({ q with sending := true } : WebhookQueue P).loop with
    | (q1, some d) => { q1 with drains := q1.drains ++ [d] }
    | (q1, none) => q1

/-- The method `enqueue(payload)` (lines 30-33). -/
def enqueue (q : WebhookQueue P) (payload : P) : WebhookQueue P :=
  ({ q with queue := q.queue ++ [payload], enqueued := q.enqueued ++ [payload] }
    : WebhookQueue P).process

/-- Activation `i` goes round the loop again. -/
def continueAt (q : WebhookQueue P) (i : Nat) : WebhookQueue P :=
  match q.loop with
  | (q1, some d) => { q1 with drains := q1.drains.set i d }
  | (q1, none) => { q1 with drains := q1.drains.eraseIdx i }

/-- The POST of activation `i` settles (lines 42-55, up to the next `await`). -/
def postSettled (q : WebhookQueue P) (i : Nat) (r : PostResult) : Option (WebhookQueue P) :=
  match q.drains.get? i with
  | some (.posting payload) =>
    match r with
    | .fulfilled =>
      some { q with
        delivered := q.delivered ++ [payload]
        outcomes := q.outcomes ++ [r]
        drains := q.drains.set i (.pacing q.retryDelay) }
    | .rejected429 header =>
      some { q with
        outcomes := q.outcomes ++ [r]
        drains := q.drains.set i (.rateLimited payload ((retryAfter header).mul (.fin 1000))) }
    | .rejectedOther =>
      some { q with
        queue := payload :: q.queue
        outcomes := q.outcomes ++ [r]
        drains := q.drains.set i (.backoff q.retryDelay) }
  | _ => none

/-- The timer of activation `i` fires (the rest of lines 43, 49-50 or 54, then
the loop). -/
def timerFired (q : WebhookQueue P) (i : Nat) : Option (WebhookQueue P) :=
  match q.drains.get? i with
  | some (.pacing _) => some (q.continueAt i)
  | some (.rateLimited payload _) =>
    some (({ q with queue := payload :: q.queue } : WebhookQueue P).continueAt i)
  | some (.backoff _) => some (q.continueAt i)
  | _ => none

end WebhookQueue

/-- What can happen to a `WebhookQueue` between two suspensions. -/
inductive QueueEvent (P : Type) where
  | enqueue (payload : P)
  | postSettled (i : Nat) (r : PostResult)
  | timerFired (i : Nat)

namespace WebhookQueue

variable {P : Type}

/-- One event; `none` when the event cannot happen in this state (no such
activation, or it waits for something else). -/
def step (q : WebhookQueue P) : QueueEvent P → Option (WebhookQueue P)
  | .enqueue payload => some (q.enqueue payload)
  | .postSettled i r => q.postSettled i r
  | .timerFired i => q.timerFired i

/-- A sequence of events. -/
def run (q : WebhookQueue P) : List (QueueEvent P) → Option (WebhookQueue P)
  | [] => some q
  | e :: es => (q.step e).bind (fun q1 => q1.run es)

/-- The payloads held by suspended activations. -/
def held (q : WebhookQueue P) : List P := q.drains.flatMap Drain.held

/-- The payloads whose POST is in flight. -/
def inFlight (q : WebhookQueue P) : List P := q.drains.flatMap Drain.inFlight

end WebhookQueue

/-- The delivery attempts that have settled, as the specification describes
them: the enqueue sequence, each payload repeated once per failed attempt up
to its first success, as far as the outcomes go. -/
def retryExpansion {P : Type} : List PostResult → List P → List P
  | [], _ => []
  | _ :: _, [] => []
  | r :: rs, p :: ps =>
    if r.isFulfilled then p :: retryExpansion rs ps else p :: retryExpansion rs (p :: ps)

/-- The payloads still to be delivered after the given outcomes. -/
def undelivered {P : Type} : List PostResult → List P → List P
  | [], ps => ps
  | _ :: _, [] => []
  | r :: rs, p :: ps =>
    if r.isFulfilled then undelivered rs ps else undelivered rs (p :: ps)

/-- The events of `n` deliveries that succeed at the first attempt: the POST
is fulfilled, then the pacing timer fires. -/
def successRounds (P : Type) (n : Nat) : List (QueueEvent P) :=
  (List.replicate n [QueueEvent.postSettled 0 .fulfilled, QueueEvent.timerFired 0]).flatten

/-! ## `getProfile` and `profileCache` (lines 21, 68-89) -/

/-- A value stored in `profileCache` (lines 80-83). -/
structure CacheEntry where
  data : JSVal
  expiresAt : Nat

/-- The `Map` `profileCache`: keys with their entries, in insertion order. -/
abbrev ProfileCache := List (JSVal × CacheEntry)

/-- The method `Map.prototype.get`. -/
def ProfileCache.get : ProfileCache → JSVal → Option CacheEntry
  | [], _ => none
  | (k, e) :: rest, key => if k.sameValueZero key then some e else ProfileCache.get rest key

/-- The method `Map.prototype.set`: the entry of a key that is there is
replaced, a new key goes to the end. -/
def ProfileCache.set : ProfileCache → JSVal → CacheEntry → ProfileCache
  | [], key, e => [(key, e)]
  | (k, e0) :: rest, key, e =>
    if k.sameValueZero key then (k, e) :: rest else (k, e0) :: ProfileCache.set rest key e

/-- How the promise of `axiosClient.get(...)` settles: fulfilled with a
response whose `data` is the body, or rejected (network error, timeout, or
a status outside 2xx). -/
inductive GetResult where
  | fulfilled (body : JSVal)
  | rejected

/-- Lines 69-73: the data of a live entry, when there is one (`now` is
`Date.now()`). -/
def getProfileCached (cache : ProfileCache) (now : Nat) (profileCode : JSVal) : Option JSVal :=
  match cache.get profileCode with
  | some cached => if cached.expiresAt > now then some cached.data else none
  | none => none

/-- Lines 76-88, after the `await`: the new cache and the value returned
(`now` is the value read at line 69, before the `await`). -/
def getProfileSettled (cache : ProfileCache) (now : Nat) (profileCode : JSVal)
    (r : GetResult) : ProfileCache × JSVal :=
  match r with
  | .rejected => (cache, .null)
  | .fulfilled res =>
    match res.getProp "data" with
    | .error _ => (cache, .null)
    | .ok profile =>
      (cache.set profileCode { data := profile, expiresAt := now + 600000 }, profile)

/-- An activation of `getProfile` suspended at line 78, with its caller's
continuation. -/
structure Lookup (κ : Type) where
  profileCode : JSVal
  now : Nat
  caller : κ

/-- The cache, the suspended activations of `getProfile`, and the history
of the GET requests issued (by profile code). -/
structure Profiles (κ : Type) where
  profileCache : ProfileCache
  lookups : List (Lookup κ)
  /-- history: the profile codes of the GET requests, in call order -/
  upstream : List JSVal

namespace Profiles

variable {κ : Type}

/-- The state at start-up (line 21). -/
def new : Profiles κ := { profileCache := [], lookups := [], upstream := [] }

/-- A call `getProfile(profileCode)` at time `now`, up to its `await`: either
it returns the cached data at once, or it issues the GET and is suspended. -/
def getProfile (s : Profiles κ) (now : Nat) (profileCode : JSVal) (caller : κ) :
    Profiles κ × Option JSVal :=
  match getProfileCached s.profileCache now profileCode with
  | some data => (s, some data)
  | none =>
    ({ s with
        lookups := s.lookups ++ [{ profileCode := profileCode, now := now, caller := caller }]
        upstream := s.upstream ++ [profileCode] }, none)

/-- The GET of suspended activation `i` settles: the activation finishes
and hands its result to its caller. -/
def settled (s : Profiles κ) (i : Nat) (r : GetResult) : Option (Profiles κ × κ × JSVal) :=
  match s.lookups.get? i with
  | some l =>
    let (cache, result) := getProfileSettled s.profileCache l.now l.profileCode r
    some ({ s with profileCache := cache, lookups := s.lookups.eraseIdx i }, l.caller, result)
  | none => none

end Profiles

/-- What can happen to the profile cache between two suspensions; the
result of a call that returns is recorded with the event that made it return. -/
inductive ProfileEvent where
  | call (profileCode : JSVal) (now : Nat)
  | settled (i : Nat) (r : GetResult)

/-- A sequence of calls of `getProfile` and of settled GETs, with the list of
the values returned so far. -/
def Profiles.run (s : Profiles Unit) (returned : List JSVal) :
    List ProfileEvent → Option (Profiles Unit × List JSVal)
  | [] => some (s, returned)
  | .call profileCode now :: es =>
    match s.getProfile now profileCode () with
    | (s1, some data) => Profiles.run s1 (returned ++ [data]) es
    | (s1, none) => Profiles.run s1 returned es
  | .settled i r :: es =>
    match s.settled i r with
    | some (s1, _, result) => Profiles.run s1 (returned ++ [result]) es
    | none => none

/-- The number of GET requests issued so far for a profile code. -/
def Profiles.upstreamCalls {κ : Type} (s : Profiles κ) (profileCode : JSVal) : Nat :=
  s.upstream.countP (fun c => c.sameValueZero profileCode)

/-! ## `connect`: the reconnect timer (lines 91-101, 130-141) -/

/-- Line 92. -/
def MAX_DELAY : Nat := 30000

/-- The state of the socket `ws`: the handshake is under way, the socket is
open, or it has closed and the reconnect timer is armed. -/
inductive Socket where
  | connecting
  | isOpen
  | closed
  deriving DecidableEq

/-- The variable `reconnectDelay`, the socket, and the history of the delays
the close handler gave to `setTimeout`. -/
structure Stream where
  reconnectDelay : Nat
  socket : Socket
  /-- history: the delays of the reconnect timers, in the order they were armed -/
  waits : List Nat
  deriving DecidableEq

/-- The events of the socket and of the reconnect timer. -/
inductive StreamEvent where
  | opened
  | errored
  | closed
  | timerFired
  deriving DecidableEq

namespace Stream

/-- Line 91 and the first `connect()` (line 149). -/
def start : Stream := { reconnectDelay := 1000, socket := .connecting, waits := [] }

/-- One event; `none` when it cannot happen in this state. -/
def step (s : Stream) : StreamEvent → Option Stream
  | .opened =>
    -- lines 98-101
    match s.socket with
    | .connecting => some { s with reconnectDelay := 1000, socket := .isOpen }
    | _ => none
  | .errored =>
    -- lines 138-141: `ws.close()`; the close event comes later, on its own
    match s.socket with
    | .closed => none
    | _ => some s
  | .closed =>
    -- lines 130-136: the timer is armed with the current delay
    match s.socket with
    | .closed => none
    | _ => some { s with socket := .closed, waits := s.waits ++ [s.reconnectDelay] }
  | .timerFired =>
    -- lines 133-134: the callback of the timer
    match s.socket with
    | .closed =>
      some { s with reconnectDelay := min (s.reconnectDelay * 2) MAX_DELAY, socket := .connecting }
    | _ => none

/-- A sequence of events. -/
def run (s : Stream) : List StreamEvent → Option Stream
  | [] => some s
  | e :: es => (s.step e).bind (fun s1 => s1.run es)

end Stream

/-! ## `connect`: the message handler (lines 103-128) -/

/-- The object given to `webhookQueue.enqueue` (lines 120-124). -/
structure Payload where
  username : String
  avatar_url : JSVal
  content : String

/-- The bindings of the destructuring at lines 106-112. -/
structure Message where
  ProfileCode : JSVal
  Nickname : JSVal
  Text : JSVal
  Channel : JSVal
  timestamp : JSVal

/-- Lines 106-112: `const { ... } = msg`, a TypeError when `msg` is `null`
or `undefined`. -/
def destructure (msg : JSVal) : Except String Message := do
  let profileCode ← msg.getProp "ProfileCode"
  let nickname ← msg.getProp "Nickname"
  let text ← msg.getProp "Text"
  let channel ← msg.getProp "Channel"
  let timestamp ← msg.getProp "timestamp"
  return { ProfileCode := profileCode, Nickname := nickname, Text := text,
           Channel := channel, timestamp := timestamp }

/-- Lines 117-124: the payload built from the message and the profile that
`getProfile` returned (`nowISO` is `new Date().toISOString()`). -/
def buildPayload (m : Message) (profile : JSVal) (nowISO : String) : Payload :=
  let avatarUrl := profile.getPropOpt "profileImageUrl"
  let content :=
    "頻道: " ++ (m.Channel.or (.str "未知")).render ++ "\n內容: " ++ m.Text.render ++
      "\n時間: " ++ (m.timestamp.or (.str nowISO)).render
  { username := m.Nickname.render ++ "#" ++ m.ProfileCode.render
    avatar_url := avatarUrl
    content := content }

/-- The process-wide state: the queue, the cache with the message handlers
suspended in `getProfile`, and the stream. -/
structure Relay where
  webhookQueue : WebhookQueue Payload
  profiles : Profiles Message
  stream : Stream

namespace Relay

/-- The state when the script has run to its end (lines 21, 63, 91, 149). -/
def start : Relay :=
  { webhookQueue := WebhookQueue.new, profiles := Profiles.new, stream := Stream.start }

/-- The body of the `try` (lines 105-124) up to the `await` of line 116, or
to its end when `getProfile` answers from the cache.  `parsed` is what
`JSON.parse(raw.toString())` does: a SyntaxError or a value. -/
def handlerBody (r : Relay) (parsed : Except String JSVal) (now : Nat) (nowISO : String) :
    Except String Relay := do
  let msg ← parsed
  let m ← destructure msg
  if !m.ProfileCode.truthy || !m.Nickname.truthy || !m.Text.truthy then
    return r
  match r.profiles.getProfile now m.ProfileCode m with
  | (profiles, some profile) =>
    return { r with
      profiles := profiles
      webhookQueue := r.webhookQueue.enqueue (buildPayload m profile nowISO) }
  | (profiles, none) => return { r with profiles := profiles }

/-- The message handler (lines 103-128): the body, and the `catch` that logs
the error and goes on. -/
def onMessage (r : Relay) (parsed : Except String JSVal) (now : Nat) (nowISO : String) :
    Except String Relay :=
  tryCatch (r.handlerBody parsed now nowISO) (fun _ => pure r)

/-- The rest of the handler (lines 116-124), when the GET of the suspended
`getProfile` number `i` settles. -/
def onProfileSettled (r : Relay) (i : Nat) (res : GetResult) (nowISO : String) :
    Option Relay :=
  match r.profiles.settled i res with
  | some (profiles, m, profile) =>
    some { r with
      profiles := profiles
      webhookQueue := r.webhookQueue.enqueue (buildPayload m profile nowISO) }
  | none => none

end Relay

/-! ## Invariants of the queue -/

/-- What holds of a `WebhookQueue` at every suspension: there is one
activation of `process()` exactly when `sending` is set, and none only with an
empty queue; nothing enqueued is lost; the history of attempts is the one the
outcomes dictate. -/
structure WebhookQueue.Inv {P : Type} (q : WebhookQueue P) : Prop where
  exclusive :
    (q.drains = [] ∧ q.sending = false ∧ q.queue = []) ∨ (∃ d, q.drains = [d] ∧ q.sending = true)
  conserved : q.delivered ++ q.held ++ q.queue = q.enqueued
  attempted : q.attempts = retryExpansion q.outcomes q.enqueued ++ q.inFlight
  pending : undelivered q.outcomes q.enqueued = q.held ++ q.queue
  fits : (retryExpansion q.outcomes q.enqueued).length = q.outcomes.length

/-! ## The payload, as the specification words it -/

/-- An optional string field of a message: the string, or `undefined` when
the field is not there. -/
def optField : Option String → JSVal
  | some s => .str s
  | none => .undefined

/-- A string field, or the fallback when the field is absent or empty. -/
def orElse (field : Option String) (fallback : String) : String :=
  match field with
  | some s => if s = "" then fallback else s
  | none => fallback

/-- The payload of the specification: the name is nickname, `#`, profile
code; the avatar is the `profileImageUrl` of the profile; the content has
the channel (or the placeholder), the text and the timestamp (or the current
time). -/
def specPayload (profileCode nickname text : String) (channel timestamp : Option String)
    (profile : JSVal) (nowISO : String) : Payload :=
  { username := nickname ++ "#" ++ profileCode
    avatar_url := profile.getPropOpt "profileImageUrl"
    content := "頻道: " ++ orElse channel "未知" ++ "\n內容: " ++ text ++ "\n時間: " ++
      orElse timestamp nowISO }

/-- The message of the end-to-end scenario with an empty `Text`. -/
def exampleEmptyText : JSVal :=
  .obj [("ProfileCode", .str "A1"), ("Nickname", .str "Bob"), ("Text", .str ""),
        ("Channel", .str "general")]

/-- The message of the end-to-end scenario. -/
def exampleMessage : JSVal :=
  .obj [("ProfileCode", .str "A1"), ("Nickname", .str "Bob"), ("Text", .str "hi"),
        ("Channel", .str "general")]

/-- The relay after `exampleMessage` has arrived at time 0 with an empty
cache: the handler is suspended in `getProfile`. -/
def exampleWaiting : Relay :=
  { Relay.start with
    profiles :=
      { profileCache := []
        lookups :=
          [{ profileCode := .str "A1", now := 0,
             caller := { ProfileCode := .str "A1", Nickname := .str "Bob", Text := .str "hi",
                         Channel := optField (some "general"), timestamp := optField none } }]
        upstream := [.str "A1"] } }

/-! ## Example numerals -/

/-- The numeral `5`. -/
def numeralFive : Numeral :=
  { negative := false, intDigits := [5], fracDigits := none, exponent := none }

/-- The numeral `1e2`. -/
def numeralHundred : Numeral :=
  { negative := false, intDigits := [1], fracDigits := none, exponent := some (false, [2]) }

/-- The numeral `1.005`. -/
def numeralFraction : Numeral :=
  { negative := false, intDigits := [1], fracDigits := some [0, 0, 5], exponent := none }

/-- The numeral `1e400`. -/
def numeralHuge : Numeral :=
  { negative := false, intDigits := [1], fracDigits := none,
    exponent := some (false, [4, 0, 0]) }

/-! ## Example traces -/

/-- Two payloads are enqueued; the first POST fails once (no response) and
then succeeds, the second succeeds at once. -/
def exampleEvents : List (QueueEvent Nat) :=
  [.enqueue 1, .enqueue 2, .postSettled 0 .rejectedOther, .timerFired 0,
   .postSettled 0 .fulfilled, .timerFired 0, .postSettled 0 .fulfilled, .timerFired 0]

/-- The queue after `exampleEvents`. -/
def exampleDrained : WebhookQueue Nat :=
  { queue := [], sending := false, retryDelay := .fin 2000, drains := [],
    enqueued := [1, 2], attempts := [1, 1, 2], delivered := [1, 2],
    outcomes := [.rejectedOther, .fulfilled, .fulfilled] }

/-- The queue after two calls of `enqueue`: the POST of the first payload is
in flight, the second payload waits. -/
def examplePosting : WebhookQueue Nat :=
  { queue := [2], sending := true, retryDelay := .fin 2000, drains := [.posting 1],
    enqueued := [1, 2], attempts := [1], delivered := [], outcomes := [] }

/-- The profile of the end-to-end scenario. -/
def exampleProfile : JSVal := .obj [("profileImageUrl", .str "http://x/a.png")]

/-- A well-formed body of the profile API: the profile under `data`. -/
def exampleBody : JSVal := .obj [("data", exampleProfile)]

/-- Two calls of `getProfile("A1")`, at times 0 and 1, before either GET
settles; then both GETs succeed. -/
def exampleRace : List ProfileEvent :=
  [.call (.str "A1") 0, .call (.str "A1") 1,
   .settled 0 (.fulfilled exampleBody), .settled 0 (.fulfilled exampleBody)]

/-! ## Lemmas on the specification functions -/

theorem retryExpansion_snoc_outcome {P : Type} (rs : List PostResult) (r : PostResult) :
    ∀ (ps : List P) (p : P) (rest : List P), undelivered rs ps = p :: rest →
      retryExpansion (rs ++ [r]) ps = retryExpansion rs ps ++ [p] ∧
      undelivered (rs ++ [r]) ps = if r.isFulfilled then rest else p :: rest := by
  induction rs with
  | nil =>
    intro ps p rest h
    simp only [undelivered] at h
    subst h
    cases hr : r.isFulfilled <;> simp [retryExpansion, undelivered, hr]
  | cons r0 rs ih =>
    intro ps p rest h
    cases ps with
    | nil => simp [undelivered] at h
    | cons p0 ps =>
      cases h0 : r0.isFulfilled
      · simp only [undelivered, h0] at h
        have := ih (p0 :: ps) p rest (by simpa using h)
        simp [retryExpansion, undelivered, h0, this.1, this.2]
      · simp only [undelivered, h0] at h
        have := ih ps p rest (by simpa using h)
        simp [retryExpansion, undelivered, h0, this.1, this.2]

theorem retryExpansion_snoc_payload {P : Type} (rs : List PostResult) (q : P) :
    ∀ (ps : List P), (retryExpansion rs ps).length = rs.length →
      retryExpansion rs (ps ++ [q]) = retryExpansion rs ps ∧
      undelivered rs (ps ++ [q]) = undelivered rs ps ++ [q] := by
  induction rs with
  | nil => intro ps _; cases ps <;> simp [retryExpansion, undelivered]
  | cons r0 rs ih =>
    intro ps h
    cases ps with
    | nil => simp [retryExpansion] at h
    | cons p0 ps =>
      cases h0 : r0.isFulfilled
      · simp only [retryExpansion, h0] at h
        have := ih (p0 :: ps) (by simpa using h)
        simp only [List.cons_append] at this
        simp [retryExpansion, undelivered, h0, this.1, this.2]
      · simp only [retryExpansion, h0] at h
        have := ih ps (by simpa using h)
        simp [retryExpansion, undelivered, h0, this.1, this.2]

/-! ## The invariant is kept by every event -/

theorem WebhookQueue.inv_new {P : Type} : (WebhookQueue.new : WebhookQueue P).Inv := by
  constructor <;> simp [WebhookQueue.new, WebhookQueue.held, WebhookQueue.inFlight,
    retryExpansion, undelivered]

theorem WebhookQueue.inv_enqueue {P : Type} (q : WebhookQueue P) (payload : P) (h : q.Inv) :
    (q.enqueue payload).Inv := by
  obtain ⟨queue, sending, retryDelay, drains, enqueued, attempts, delivered, outcomes⟩ := q
  obtain ⟨hx, hc, ha, hp, hf⟩ := h
  simp only [WebhookQueue.held, WebhookQueue.inFlight] at hx hc ha hp hf
  have e := retryExpansion_snoc_payload outcomes payload enqueued hf
  rcases hx with ⟨hd, hs, hq⟩ | ⟨d, hd, hs⟩
  · subst hd hs hq
    simp only [List.flatMap_nil, List.append_nil] at hc ha hp
    constructor <;>
      simp [WebhookQueue.enqueue, WebhookQueue.process, WebhookQueue.loop, WebhookQueue.held,
        WebhookQueue.inFlight, Drain.held, Drain.inFlight, e.1, e.2, hc, ha, hp, hf]
  · subst hd hs
    refine ⟨?_, ?_, ?_, ?_, ?_⟩
    · simp [WebhookQueue.enqueue, WebhookQueue.process]
    · simp [WebhookQueue.enqueue, WebhookQueue.process, WebhookQueue.held, ← hc]
    · simp [WebhookQueue.enqueue, WebhookQueue.process, WebhookQueue.inFlight, e.1, ha]
    · simp [WebhookQueue.enqueue, WebhookQueue.process, WebhookQueue.held, e.2, hp]
    · simp [WebhookQueue.enqueue, WebhookQueue.process, e.1, hf]

theorem WebhookQueue.inv_postSettled {P : Type} (q q1 : WebhookQueue P) (i : Nat)
    (r : PostResult) (h : q.Inv) (hstep : q.postSettled i r = some q1) : q1.Inv := by
  obtain ⟨queue, sending, retryDelay, drains, enqueued, attempts, delivered, outcomes⟩ := q
  obtain ⟨hx, hc, ha, hp, hf⟩ := h
  simp only [WebhookQueue.held, WebhookQueue.inFlight] at hx hc ha hp hf
  rcases hx with ⟨hd, hs, hq⟩ | ⟨d, hd, hs⟩
  · subst hd
    simp [WebhookQueue.postSettled] at hstep
  · subst hd hs
    cases i with
    | succ j => simp [WebhookQueue.postSettled] at hstep
    | zero =>
      cases d with
      | posting payload =>
        simp only [List.flatMap_cons, List.flatMap_nil, Drain.held, Drain.inFlight,
          List.append_nil, List.singleton_append] at hc ha hp
        have e := retryExpansion_snoc_outcome outcomes r enqueued payload queue hp
        cases r with
        | fulfilled =>
          simp only [WebhookQueue.postSettled, List.get?_cons_zero, Option.some.injEq] at hstep
          subst hstep
          refine ⟨?_, ?_, ?_, ?_, ?_⟩
          · simp
          · simp [WebhookQueue.held, Drain.held, ← hc]
          · simp [WebhookQueue.inFlight, Drain.inFlight, e.1, ha]
          · simp [WebhookQueue.held, Drain.held, e.2, PostResult.isFulfilled]
          · simp [e.1, hf]
        | rejected429 header =>
          simp only [WebhookQueue.postSettled, List.get?_cons_zero, Option.some.injEq] at hstep
          subst hstep
          refine ⟨?_, ?_, ?_, ?_, ?_⟩
          · simp
          · simp [WebhookQueue.held, Drain.held, ← hc]
          · simp [WebhookQueue.inFlight, Drain.inFlight, e.1, ha]
          · simp [WebhookQueue.held, Drain.held, e.2, PostResult.isFulfilled]
          · simp [e.1, hf]
        | rejectedOther =>
          simp only [WebhookQueue.postSettled, List.get?_cons_zero, Option.some.injEq] at hstep
          subst hstep
          refine ⟨?_, ?_, ?_, ?_, ?_⟩
          · simp
          · simp [WebhookQueue.held, Drain.held, ← hc]
          · simp [WebhookQueue.inFlight, Drain.inFlight, e.1, ha]
          · simp [WebhookQueue.held, Drain.held, e.2, PostResult.isFulfilled]
          · simp [e.1, hf]
      | pacing ms => simp [WebhookQueue.postSettled] at hstep
      | rateLimited payload ms => simp [WebhookQueue.postSettled] at hstep
      | backoff ms => simp [WebhookQueue.postSettled] at hstep

theorem WebhookQueue.inv_continueAt {P : Type} (q : WebhookQueue P) (d : Drain P)
    (hd : q.drains = [d]) (hs : q.sending = true)
    (hc : q.delivered ++ q.queue = q.enqueued)
    (ha : q.attempts = retryExpansion q.outcomes q.enqueued)
    (hp : undelivered q.outcomes q.enqueued = q.queue)
    (hf : (retryExpansion q.outcomes q.enqueued).length = q.outcomes.length) :
    (q.continueAt 0).Inv := by
  obtain ⟨queue, sending, retryDelay, drains, enqueued, attempts, delivered, outcomes⟩ := q
  simp only at hd hs hc ha hp hf
  subst hd hs
  cases queue with
  | nil =>
    refine ⟨?_, ?_, ?_, ?_, ?_⟩
    · simp [WebhookQueue.continueAt, WebhookQueue.loop]
    · simpa [WebhookQueue.continueAt, WebhookQueue.loop, WebhookQueue.held] using hc
    · simpa [WebhookQueue.continueAt, WebhookQueue.loop, WebhookQueue.inFlight] using ha
    · simpa [WebhookQueue.continueAt, WebhookQueue.loop, WebhookQueue.held] using hp
    · simpa [WebhookQueue.continueAt, WebhookQueue.loop] using hf
  | cons payload rest =>
    refine ⟨?_, ?_, ?_, ?_, ?_⟩
    · simp [WebhookQueue.continueAt, WebhookQueue.loop]
    · simpa [WebhookQueue.continueAt, WebhookQueue.loop, WebhookQueue.held, Drain.held] using hc
    · simp [WebhookQueue.continueAt, WebhookQueue.loop, WebhookQueue.inFlight, Drain.inFlight, ha]
    · simpa [WebhookQueue.continueAt, WebhookQueue.loop, WebhookQueue.held, Drain.held] using hp
    · simpa [WebhookQueue.continueAt, WebhookQueue.loop] using hf

theorem WebhookQueue.inv_timerFired {P : Type} (q q1 : WebhookQueue P) (i : Nat)
    (h : q.Inv) (hstep : q.timerFired i = some q1) : q1.Inv := by
  obtain ⟨hx, hc, ha, hp, hf⟩ := h
  rcases hx with ⟨hd, hs, hq⟩ | ⟨d, hd, hs⟩
  · simp [WebhookQueue.timerFired, hd] at hstep
  · cases i with
    | succ j => simp [WebhookQueue.timerFired, hd] at hstep
    | zero =>
      simp only [WebhookQueue.held, WebhookQueue.inFlight, hd, List.flatMap_cons,
        List.flatMap_nil, List.append_nil] at hc ha hp
      cases d with
      | posting payload => simp [WebhookQueue.timerFired, hd] at hstep
      | pacing ms =>
        simp only [WebhookQueue.timerFired, hd, List.get?_cons_zero, Option.some.injEq] at hstep
        subst hstep
        exact WebhookQueue.inv_continueAt q _ hd hs (by simpa [Drain.held] using hc)
          (by simpa [Drain.inFlight] using ha) (by simpa [Drain.held] using hp) hf
      | backoff ms =>
        simp only [WebhookQueue.timerFired, hd, List.get?_cons_zero, Option.some.injEq] at hstep
        subst hstep
        exact WebhookQueue.inv_continueAt q _ hd hs (by simpa [Drain.held] using hc)
          (by simpa [Drain.inFlight] using ha) (by simpa [Drain.held] using hp) hf
      | rateLimited payload ms =>
        simp only [WebhookQueue.timerFired, hd, List.get?_cons_zero, Option.some.injEq] at hstep
        subst hstep
        exact WebhookQueue.inv_continueAt _ _ rfl hs
          (by simpa [Drain.held] using hc)
          (by simpa [Drain.inFlight] using ha) (by simpa [Drain.held] using hp) hf

theorem WebhookQueue.inv_step {P : Type} (q q1 : WebhookQueue P) (e : QueueEvent P)
    (h : q.Inv) (hstep : q.step e = some q1) : q1.Inv := by
  cases e with
  | enqueue payload =>
    simp only [WebhookQueue.step, Option.some.injEq] at hstep
    subst hstep
    exact WebhookQueue.inv_enqueue q payload h
  | postSettled i r => exact WebhookQueue.inv_postSettled q q1 i r h hstep
  | timerFired i => exact WebhookQueue.inv_timerFired q q1 i h hstep

theorem WebhookQueue.inv_run {P : Type} (es : List (QueueEvent P)) :
    ∀ (q q1 : WebhookQueue P), q.Inv → q.run es = some q1 → q1.Inv := by
  induction es with
  | nil =>
    intro q q1 h hrun
    simp only [WebhookQueue.run, Option.some.injEq] at hrun
    exact hrun ▸ h
  | cons e es ih =>
    intro q q1 h hrun
    simp only [WebhookQueue.run] at hrun
    cases hs : q.step e with
    | none => simp [hs] at hrun
    | some q2 =>
      simp only [hs, Option.some_bind] at hrun
      exact ih q2 q1 (WebhookQueue.inv_step q q2 e h hs) hrun

/-! ## The retry expansion, spelled out -/

theorem retryExpansion_all_fulfilled {P : Type} (rs : List PostResult) :
    ∀ (ps : List P), (∀ r ∈ rs, r.isFulfilled = true) →
      retryExpansion rs ps = ps.take rs.length ∧ undelivered rs ps = ps.drop rs.length := by
  induction rs with
  | nil => intro ps _; simp [retryExpansion, undelivered]
  | cons r0 rs ih =>
    intro ps h
    have h0 : r0.isFulfilled = true := h r0 (List.mem_cons_self _ _)
    have hrest : ∀ r ∈ rs, r.isFulfilled = true := fun r hr => h r (List.mem_cons_of_mem _ hr)
    cases ps with
    | nil => simp [retryExpansion, undelivered]
    | cons p0 ps =>
      have := ih ps hrest
      simp [retryExpansion, undelivered, h0, this.1, this.2]

theorem retryExpansion_complete {P : Type} (rs : List PostResult) :
    ∀ (ps : List P), undelivered rs ps = [] → (retryExpansion rs ps).length = rs.length →
      ∃ fails : List Nat, fails.length = ps.length ∧
        rs.map PostResult.isFulfilled
          = fails.flatMap (fun k => List.replicate k false ++ [true]) ∧
        retryExpansion rs ps
          = (ps.zip fails).flatMap (fun pk => List.replicate (pk.2 + 1) pk.1) := by
  induction rs with
  | nil =>
    intro ps h _
    simp only [undelivered] at h
    subst h
    exact ⟨[], by simp [retryExpansion]⟩
  | cons r0 rs ih =>
    intro ps h hf
    cases ps with
    | nil => simp [retryExpansion] at hf
    | cons p0 ps =>
      cases h0 : r0.isFulfilled
      · simp only [undelivered, h0] at h
        simp only [retryExpansion, h0] at hf
        obtain ⟨fails, hlen, hmap, hexp⟩ := ih (p0 :: ps) (by simpa using h) (by simpa using hf)
        cases fails with
        | nil => simp at hlen
        | cons k fs =>
          refine ⟨(k + 1) :: fs, by simpa using hlen, ?_, ?_⟩
          · simp only [List.map_cons, h0, hmap, List.flatMap_cons, List.replicate_succ,
              List.cons_append]
          · simp only [retryExpansion, h0, hexp, List.zip_cons_cons, List.flatMap_cons,
              List.replicate_succ, List.cons_append]
            simp
      · simp only [undelivered, h0] at h
        simp only [retryExpansion, h0] at hf
        obtain ⟨fails, hlen, hmap, hexp⟩ := ih ps (by simpa using h) (by simpa using hf)
        refine ⟨0 :: fails, by simpa using hlen, ?_, ?_⟩
        · simp [h0, hmap]
        · simp [retryExpansion, h0, hexp]

/-! ## The claims about the queue -/

theorem Drain.inFlight_nil_of_held_nil {P : Type} (d : Drain P) (h : d.held = []) : d.inFlight = [] := by
  cases d <;> simp_all [Drain.held, Drain.inFlight]

theorem WebhookQueue.inFlight_of_held {P : Type} (q : WebhookQueue P) (h : q.Inv)
    (hh : q.held = []) : q.inFlight = [] := by
  rcases h.exclusive with ⟨hd, _, _⟩ | ⟨d, hd, _⟩
  · simp [WebhookQueue.inFlight, hd]
  · simp only [WebhookQueue.held, hd, List.flatMap_cons, List.flatMap_nil,
      List.append_nil] at hh
    simp [WebhookQueue.inFlight, hd, Drain.inFlight_nil_of_held_nil d hh]

theorem WebhookQueue.run_enqueues {P : Type} (extra : List P) :
    ∀ (q : WebhookQueue P), q.sending = true →
      q.run (extra.map QueueEvent.enqueue)
        = some { q with queue := q.queue ++ extra, enqueued := q.enqueued ++ extra } := by
  induction extra with
  | nil => intro q _; simp [WebhookQueue.run]
  | cons p ps ih =>
    intro q hs
    have hstep : q.step (.enqueue p)
        = some { q with queue := q.queue ++ [p], enqueued := q.enqueued ++ [p] } := by
      simp [WebhookQueue.step, WebhookQueue.enqueue, WebhookQueue.process, hs]
    simp only [List.map_cons, WebhookQueue.run, hstep, Option.some_bind]
    have := ih ({ q with queue := q.queue ++ [p], enqueued := q.enqueued ++ [p] }) hs
    simpa using this

theorem WebhookQueue.run_append {P : Type} (es1 es2 : List (QueueEvent P)) :
    ∀ q : WebhookQueue P, q.run (es1 ++ es2) = (q.run es1).bind (fun q1 => q1.run es2) := by
  induction es1 with
  | nil => intro q; simp [WebhookQueue.run]
  | cons e es ih =>
    intro q
    simp only [List.cons_append, WebhookQueue.run]
    cases q.step e with
    | none => simp
    | some q1 => simp [ih q1]

theorem WebhookQueue.run_successRounds {P : Type} (rest : List P) :
    ∀ (p : P) (q : WebhookQueue P), q.drains = [.posting p] → q.queue = rest →
      q.run (successRounds P (rest.length + 1))
        = some { q with
            queue := [], sending := false, drains := []
            attempts := q.attempts ++ rest
            delivered := q.delivered ++ p :: rest
            outcomes := q.outcomes ++ List.replicate (rest.length + 1) .fulfilled } := by
  induction rest with
  | nil =>
    intro p q hd hq
    obtain ⟨queue, sending, retryDelay, drains, enqueued, attempts, delivered, outcomes⟩ := q
    simp only at hd hq
    subst hd hq
    simp [successRounds, WebhookQueue.run, WebhookQueue.step, WebhookQueue.postSettled,
      WebhookQueue.timerFired, WebhookQueue.continueAt, WebhookQueue.loop]
  | cons p1 rest ih =>
    intro p q hd hq
    obtain ⟨queue, sending, retryDelay, drains, enqueued, attempts, delivered, outcomes⟩ := q
    simp only at hd hq
    subst hd hq
    have hsplit : successRounds P ((p1 :: rest).length + 1)
        = [QueueEvent.postSettled 0 .fulfilled, QueueEvent.timerFired 0]
            ++ successRounds P (rest.length + 1) := by
      simp [successRounds, List.replicate_succ]
    rw [hsplit, WebhookQueue.run_append]
    have hfirst :
        (⟨p1 :: rest, sending, retryDelay, [.posting p], enqueued, attempts, delivered,
            outcomes⟩ : WebhookQueue P).run
          [QueueEvent.postSettled 0 .fulfilled, QueueEvent.timerFired 0]
        = some ⟨rest, sending, retryDelay, [.posting p1], enqueued, attempts ++ [p1],
            delivered ++ [p], outcomes ++ [.fulfilled]⟩ := by
      simp [WebhookQueue.run, WebhookQueue.step, WebhookQueue.postSettled,
        WebhookQueue.timerFired, WebhookQueue.continueAt, WebhookQueue.loop]
    rw [hfirst, Option.some_bind, ih p1 _ rfl rfl]
    simp [List.replicate_succ]

theorem WebhookQueue.run_all_success {P : Type} (ps : List P) :
    (WebhookQueue.new : WebhookQueue P).run
        (ps.map QueueEvent.enqueue ++ successRounds P ps.length)
      = some { queue := [], sending := false, retryDelay := .fin 2000, drains := [],
               enqueued := ps, attempts := ps, delivered := ps,
               outcomes := List.replicate ps.length .fulfilled } := by
  cases ps with
  | nil => rfl
  | cons p rest =>
    rw [WebhookQueue.run_append]
    have hfirst : (WebhookQueue.new : WebhookQueue P).run ((p :: rest).map QueueEvent.enqueue)
        = some { queue := rest, sending := true, retryDelay := .fin 2000,
                 drains := [.posting p], enqueued := p :: rest, attempts := [p],
                 delivered := [], outcomes := [] } := by
      simp only [List.map_cons, WebhookQueue.run, WebhookQueue.step, Option.some_bind]
      rw [WebhookQueue.run_enqueues rest _ (by
        simp [WebhookQueue.new, WebhookQueue.enqueue, WebhookQueue.process, WebhookQueue.loop])]
      simp [WebhookQueue.new, WebhookQueue.enqueue, WebhookQueue.process, WebhookQueue.loop]
    rw [hfirst, Option.some_bind, List.length_cons,
      WebhookQueue.run_successRounds rest p _ rfl rfl]
    simp

/-- C1 (delivery order). In every state reached from a new queue by any
sequence of `enqueue` calls, settled POSTs (fulfilled, 429, other failure) and
timers, the attempts made so far are the retry expansion of the enqueue
sequence under the outcomes so far, followed by the payload in flight.  Once
everything enqueued is delivered, the attempts are the enqueue sequence with
payload number `j` repeated `fails[j] + 1` times in a row, where `fails[j]` is
the number of failed attempts before its first success; and when every outcome
is a success the attempts are exactly the enqueue sequence.  Such a run exists
for every list of payloads: `N` calls of `enqueue` followed by `N` successful
deliveries make exactly the `N` attempts, in enqueue order. -/
theorem delivery_order {P : Type} (es : List (QueueEvent P)) (q : WebhookQueue P)
    (hrun : WebhookQueue.new.run es = some q) :
    q.attempts = retryExpansion q.outcomes q.enqueued ++ q.inFlight ∧
    (q.delivered = q.enqueued →
      ∃ fails : List Nat, fails.length = q.enqueued.length ∧
        q.outcomes.map PostResult.isFulfilled
          = fails.flatMap (fun k => List.replicate k false ++ [true]) ∧
        q.attempts = (q.enqueued.zip fails).flatMap (fun pk => List.replicate (pk.2 + 1) pk.1)) ∧
    (q.delivered = q.enqueued → (∀ r ∈ q.outcomes, r = PostResult.fulfilled) →
      q.attempts = q.enqueued ∧ q.attempts.length = q.enqueued.length) ∧
    (∀ ps : List P, ∃ q1 : WebhookQueue P,
      (WebhookQueue.new : WebhookQueue P).run
          (ps.map QueueEvent.enqueue ++ successRounds P ps.length) = some q1 ∧
        q1.attempts = ps ∧ q1.delivered = ps ∧ q1.attempts.length = ps.length) := by
  have inv := WebhookQueue.inv_run es _ q WebhookQueue.inv_new hrun
  have done : q.delivered = q.enqueued → q.held = [] ∧ q.queue = [] ∧ q.inFlight = [] := by
    intro hd
    have hc := inv.conserved
    rw [hd, List.append_assoc] at hc
    have hnil : q.held ++ q.queue = [] := List.append_right_eq_self.mp hc
    have hh : q.held = [] := (List.append_eq_nil.mp hnil).1
    exact ⟨hh, (List.append_eq_nil.mp hnil).2, WebhookQueue.inFlight_of_held q inv hh⟩
  refine ⟨inv.attempted, ?_, ?_, fun ps => ⟨_, WebhookQueue.run_all_success ps, rfl, rfl, rfl⟩⟩
  · intro hd
    obtain ⟨hh, hq, hfl⟩ := done hd
    have hp := inv.pending
    rw [hh, hq] at hp
    obtain ⟨fails, h1, h2, h3⟩ := retryExpansion_complete q.outcomes q.enqueued hp inv.fits
    refine ⟨fails, h1, h2, ?_⟩
    rw [inv.attempted, hfl, List.append_nil, h3]
  · intro hd hall
    obtain ⟨hh, hq, hfl⟩ := done hd
    have hall1 : ∀ r ∈ q.outcomes, r.isFulfilled = true := by
      intro r hr
      rw [hall r hr]
      rfl
    have e := retryExpansion_all_fulfilled q.outcomes q.enqueued hall1
    have hp := inv.pending
    rw [hh, hq, e.2] at hp
    have hlen : q.enqueued.length ≤ q.outcomes.length := by
      simpa using List.drop_eq_nil_iff.mp hp
    have hatt : q.attempts = q.enqueued := by
      rw [inv.attempted, hfl, List.append_nil, e.1, List.take_of_length_le hlen]
    exact ⟨hatt, by rw [hatt]⟩

/-- C1, at a concrete trace: two payloads, the first retried once. -/
theorem delivery_order_witness :
    WebhookQueue.new.run exampleEvents = some exampleDrained ∧
    exampleDrained.attempts
      = retryExpansion exampleDrained.outcomes exampleDrained.enqueued
          ++ exampleDrained.inFlight :=
  ⟨rfl, (delivery_order exampleEvents exampleDrained rfl).1⟩

/-- C2 (nothing is dropped). In every state reached from a new queue by any
sequence of `enqueue` calls, settled POSTs (with any outcome) and timers, the
payloads delivered, then the payload held by the drain loop (at most one),
then `this.queue`, are the payloads enqueued so far, in enqueue order. -/
theorem no_payload_dropped {P : Type} (es : List (QueueEvent P)) (q : WebhookQueue P)
    (hrun : WebhookQueue.new.run es = some q) :
    q.delivered ++ q.held ++ q.queue = q.enqueued ∧ q.held.length ≤ 1 := by
  have inv := WebhookQueue.inv_run es _ q WebhookQueue.inv_new hrun
  refine ⟨inv.conserved, ?_⟩
  rcases inv.exclusive with ⟨hd, _, _⟩ | ⟨d, hd, _⟩
  · simp [WebhookQueue.held, hd]
  · cases d <;> simp [WebhookQueue.held, hd, Drain.held]

/-- C2, at a concrete trace: a failed POST puts the payload back. -/
theorem no_payload_dropped_witness :
    WebhookQueue.new.run exampleEvents = some exampleDrained ∧
    exampleDrained.delivered ++ exampleDrained.held ++ exampleDrained.queue
      = exampleDrained.enqueued :=
  ⟨rfl, (no_payload_dropped exampleEvents exampleDrained rfl).1⟩

/-- C5 (drain exclusivity). In every reachable state there is at most one
activation of `process()`, there is one exactly when `sending` is true, and
at most one POST is in flight; and an `enqueue` made while `sending` is true
only appends the payload to the tail of the queue: the activations and the
attempts stay as they are. -/
theorem drain_exclusive {P : Type} (es : List (QueueEvent P)) (q : WebhookQueue P)
    (hrun : WebhookQueue.new.run es = some q) :
    q.drains.length ≤ 1 ∧ (q.drains.length = 1 ↔ q.sending = true) ∧
    q.inFlight.length ≤ 1 ∧
    (q.sending = true → ∀ payload : P,
      q.enqueue payload
        = { q with queue := q.queue ++ [payload], enqueued := q.enqueued ++ [payload] }) := by
  have inv := WebhookQueue.inv_run es _ q WebhookQueue.inv_new hrun
  refine ⟨?_, ?_, ?_, ?_⟩
  · rcases inv.exclusive with ⟨hd, _, _⟩ | ⟨d, hd, _⟩ <;> simp [hd]
  · rcases inv.exclusive with ⟨hd, hs, _⟩ | ⟨d, hd, hs⟩ <;> simp [hd, hs]
  · rcases inv.exclusive with ⟨hd, _, _⟩ | ⟨d, hd, _⟩
    · simp [WebhookQueue.inFlight, hd]
    · cases d <;> simp [WebhookQueue.inFlight, hd, Drain.inFlight]
  · intro hs payload
    simp [WebhookQueue.enqueue, WebhookQueue.process, hs]

/-- C5, at a concrete state: an `enqueue` while the first POST is in flight. -/
theorem drain_exclusive_witness :
    WebhookQueue.new.run [.enqueue 1, .enqueue 2] = some examplePosting ∧
    examplePosting.drains.length ≤ 1 ∧
    (examplePosting.enqueue 3).drains = [.posting 1] ∧
    (examplePosting.enqueue 3).queue = [2, 3] :=
  ⟨rfl, (drain_exclusive [.enqueue 1, .enqueue 2] examplePosting rfl).1, rfl, rfl⟩

/-! ## `parseFloat` on a decimal numeral -/

theorem digitChar_isDigit : ∀ d : Fin 10, (digitChar d).isDigit = true := by decide

theorem digitChar_toNat : ∀ d : Fin 10, (digitChar d).toNat - 48 = d.val := by decide

theorem digitChar_not_space : ∀ d : Fin 10, isStrWhiteSpace (digitChar d) = false := by decide

theorem digitChar_ne : ∀ d : Fin 10,
    digitChar d ≠ '+' ∧ digitChar d ≠ '-' ∧ digitChar d ≠ '.' ∧ digitChar d ≠ 'I' := by decide

theorem spanDigits_digits (ds : List (Fin 10)) (rest : List Char)
    (hrest : ∀ c ∈ rest.head?, c.isDigit = false) :
    spanDigits (ds.map digitChar ++ rest) = (ds.map digitChar, rest) := by
  induction ds with
  | nil =>
    cases rest with
    | nil => rfl
    | cons c cs =>
      have : c.isDigit = false := hrest c (by simp)
      simp [spanDigits, this]
  | cons d ds ih => simp [spanDigits, digitChar_isDigit, ih]

theorem digitsValue_foldl (ds : List (Fin 10)) :
    ∀ acc : Nat, (ds.map digitChar).foldl (fun acc c => 10 * acc + (c.toNat - 48)) acc
      = acc * 10 ^ ds.length + digitsNat ds := by
  induction ds with
  | nil => intro acc; simp [digitsNat]
  | cons d ds ih =>
    intro acc
    simp only [List.map_cons, List.foldl_cons, ih, digitChar_toNat, digitsNat, List.reverse_cons,
      Nat.ofDigits_append, List.length_reverse, List.length_map, List.length_cons,
      Nat.ofDigits_singleton]
    ring

theorem digitsValue_digits (ds : List (Fin 10)) :
    digitsValue (ds.map digitChar) = digitsNat ds := by
  simp [digitsValue, digitsValue_foldl]

theorem digitsNat_append (a b : List (Fin 10)) :
    digitsNat (a ++ b) = digitsNat a * 10 ^ b.length + digitsNat b := by
  simp only [digitsNat, List.map_append, List.reverse_append, Nat.ofDigits_append,
    List.length_reverse, List.length_map]
  ring

theorem exponentPart_unsigned (c : Char) (cs : List Char) (hp : c ≠ '+') (hm : c ≠ '-') :
    exponentPart ('e' :: c :: cs)
      = if (spanDigits (c :: cs)).1.isEmpty then 0
        else Int.ofNat (digitsValue (spanDigits (c :: cs)).1) := by
  simp only [exponentPart, Bool.or_eq_true, decide_eq_true_eq, true_or, if_true]
  split
  · rename_i h; simp only [List.cons.injEq] at h; exact absurd h.1 hp
  · rename_i h; simp only [List.cons.injEq] at h; exact absurd h.1 hm
  · rfl

theorem exponentPart_expChars (e : Option (Bool × List (Fin 10)))
    (hwf : ∀ x ∈ e, x.2 ≠ []) :
    exponentPart (Numeral.expChars e) = Numeral.expValue e := by
  match e, hwf with
  | none, _ => rfl
  | some (true, ds), hwf =>
    have hne : ds ≠ [] := hwf (true, ds) rfl
    have hspan := spanDigits_digits ds [] (by simp)
    simp only [List.append_nil] at hspan
    simp [Numeral.expChars, exponentPart, hspan, hne, digitsValue_digits, Numeral.expValue]
  | some (false, ds), hwf =>
    have hne : ds ≠ [] := hwf (false, ds) rfl
    have hspan := spanDigits_digits ds [] (by simp)
    simp only [List.append_nil] at hspan
    cases ds with
    | nil => exact absurd rfl hne
    | cons d ds =>
      have hval := digitsValue_digits (d :: ds)
      simp only [List.map_cons] at hspan hval
      simp only [Numeral.expChars, Numeral.expValue, List.map_cons]
      rw [exponentPart_unsigned _ _ (digitChar_ne d).1 (digitChar_ne d).2.1, hspan, hval]
      simp

theorem expChars_head (e : Option (Bool × List (Fin 10))) :
    ∀ c ∈ (Numeral.expChars e).head?, c = 'e' := by
  match e with
  | none => simp [Numeral.expChars]
  | some (true, ds) => simp [Numeral.expChars]
  | some (false, ds) => simp [Numeral.expChars]

theorem unsignedLiteral_numeral (neg : Bool) (d : Fin 10) (ds : List (Fin 10))
    (f : Option (List (Fin 10))) (e : Option (Bool × List (Fin 10)))
    (hwf : ∀ x ∈ e, x.2 ≠ []) :
    unsignedLiteral neg
        ((d :: ds).map digitChar ++ Numeral.fracChars f ++ Numeral.expChars e)
      = .decimal neg (digitsNat ((d :: ds) ++ f.getD []))
          (Numeral.expValue e - Int.ofNat (f.getD []).length) := by
  have hexp : ∀ c ∈ (Numeral.expChars e).head?, c.isDigit = false := by
    intro c hc
    rw [expChars_head e c hc]
    decide
  have hinf : List.isPrefixOf "Infinity".toList
      ((d :: ds).map digitChar ++ Numeral.fracChars f ++ Numeral.expChars e) = false := by
    have : ('I' == digitChar d) = false := by
      simpa using fun h => (digitChar_ne d).2.2.2 h.symm
    simp [List.isPrefixOf, this]
  have hne : (List.map digitChar (d :: ds)).isEmpty = false := rfl
  cases f with
  | none =>
    have hspan := spanDigits_digits (d :: ds) (Numeral.expChars e) hexp
    have hv := digitsValue_digits (d :: ds)
    simp only [Numeral.fracChars, List.append_nil] at hinf ⊢
    unfold unsignedLiteral
    simp only [hinf, hspan, Bool.false_eq_true, if_false]
    have hnodot : ∀ rest, Numeral.expChars e ≠ '.' :: rest := by
      intro rest h
      have := expChars_head e '.' (by simp [h])
      exact absurd this (by decide)
    split
    · rename_i h; exact absurd h (hnodot _)
    · simp only [hne, Bool.false_eq_true, if_false, hv, exponentPart_expChars e hwf,
        Option.getD_none, List.append_nil, List.length_nil, Int.ofNat_eq_coe, Nat.cast_zero,
        sub_zero]
  | some fs =>
    have hspan := spanDigits_digits (d :: ds)
      ('.' :: (fs.map digitChar ++ Numeral.expChars e)) (by simp)
    have hspan2 := spanDigits_digits fs (Numeral.expChars e) hexp
    have hv := digitsValue_digits ((d :: ds) ++ fs)
    simp only [List.map_append] at hv
    simp only [Numeral.fracChars, List.append_assoc, List.cons_append] at hinf ⊢
    unfold unsignedLiteral
    simp only [hinf, hspan, hspan2, Bool.false_eq_true, if_false, hne, Bool.false_and, hv,
      exponentPart_expChars e hwf, Option.getD_some, List.length_map]
    rfl

theorem strDecimalLiteral_numeral (n : Numeral) (hwf : n.WellFormed) :
    strDecimalLiteral n.text
      = .decimal n.negative (digitsNat (n.intDigits ++ n.fracDigits.getD []))
          (Numeral.expValue n.exponent - Int.ofNat (n.fracDigits.getD []).length) := by
  obtain ⟨neg, ints, f, e⟩ := n
  obtain ⟨hint, hexp⟩ := hwf
  simp only at hint hexp
  cases ints with
  | nil => exact absurd rfl hint
  | cons d ds =>
    have hlit := unsignedLiteral_numeral neg d ds f e hexp
    have hsp := digitChar_not_space d
    cases neg with
    | true =>
      have hminus : isStrWhiteSpace '-' = false := by decide
      simp only [strDecimalLiteral, Numeral.text, String.toList, if_true, List.cons_append,
        List.nil_append, List.append_assoc, List.dropWhile_cons, hminus]
      simp only [List.append_assoc] at hlit
      simpa using hlit
    | false =>
      simp only [strDecimalLiteral, Numeral.text, String.toList, Bool.false_eq_true, if_false,
        List.nil_append, List.map_cons, List.cons_append, List.append_assoc, List.dropWhile_cons,
        hsp]
      simp only [List.map_cons, List.cons_append, List.append_assoc] at hlit
      split
      · rename_i h; simp only [List.cons.injEq] at h; exact absurd h.1 (digitChar_ne d).1
      · rename_i h; simp only [List.cons.injEq] at h; exact absurd h.1 (digitChar_ne d).2.1
      · exact hlit

theorem decimalValue_eq (neg : Bool) (m : Nat) (e : Int) :
    decimalValue neg m e = (if neg then -1 else 1) * (m : ℚ) * 10 ^ e := by
  unfold decimalValue
  by_cases he : 0 ≤ e
  · obtain ⟨k, rfl⟩ := Int.eq_ofNat_of_zero_le he
    cases neg <;> simp [Rat.mkRat_eq_div]
  · have hneg : e < 0 := by omega
    obtain ⟨k, hk⟩ := Int.exists_eq_neg_ofNat (le_of_lt hneg)
    subst hk
    cases neg <;> simp [he, Rat.mkRat_eq_div, zpow_neg, div_eq_mul_inv]

theorem parseFloat_numeral (n : Numeral) (hwf : n.WellFormed) :
    parseFloat (.str n.text) = roundDouble n.value := by
  simp only [parseFloat, JSVal.render]
  rw [strDecimalLiteral_numeral n hwf]
  simp only [StrDecimal.toNum, decimalValue_eq, Numeral.value, digitsNat_append]
  congr 1
  have h10 : (10 : ℚ) ^ (n.fracDigits.getD []).length ≠ 0 := by positivity
  rw [zpow_sub₀ (by norm_num : (10 : ℚ) ≠ 0)]
  push_cast
  simp only [Int.ofNat_eq_coe, zpow_natCast]
  field_simp

theorem Numeral.text_ne_empty (n : Numeral) (hwf : n.WellFormed) : n.text ≠ "" := by
  obtain ⟨neg, ints, f, e⟩ := n
  obtain ⟨hint, _⟩ := hwf
  simp only at hint
  cases ints with
  | nil => exact absurd rfl hint
  | cons d ds =>
    intro h
    have := congrArg String.length h
    cases neg <;> simp [Numeral.text, String.length] at this

theorem retryAfter_numeral (n : Numeral) (hwf : n.WellFormed) :
    retryAfter (.str n.text) = roundDouble n.value := by
  have hs := Numeral.text_ne_empty n hwf
  simp [retryAfter, JSVal.or, JSVal.truthy, hs, parseFloat_numeral n hwf]

/-! ## Rounding, at particular values -/

theorem roundDouble_of (q : ℚ) (n d m : Nat) (k : Int) (hq : q ≠ 0)
    (hnum : q.num.natAbs = n) (hden : q.den = d) (h : nearestDouble n d = some (m, k)) :
    roundDouble q = .fin ((if q < 0 then -1 else 1) * (m : ℚ) * 2 ^ k) := by
  simp [roundDouble, hq, hnum, hden, h]

theorem roundDouble_three : roundDouble 3 = .fin 3 := by
  rw [roundDouble_of 3 3 1 (3 * 2 ^ 51) (-51) (by norm_num) (by norm_num) (by norm_num)
    (by decide)]
  norm_num

theorem roundDouble_five : roundDouble 5 = .fin 5 := by
  rw [roundDouble_of 5 5 1 (5 * 2 ^ 50) (-50) (by norm_num) (by norm_num) (by norm_num)
    (by decide)]
  norm_num

theorem roundDouble_hundred : roundDouble 100 = .fin 100 := by
  rw [roundDouble_of 100 100 1 (100 * 2 ^ 46) (-46) (by norm_num) (by norm_num) (by norm_num)
    (by decide)]
  norm_num

theorem mul_three_thousand : (JSNum.fin 3).mul (.fin 1000) = .fin 3000 := by
  simp only [JSNum.mul]
  rw [roundDouble_of (3 * 1000) 3000 1 (3000 * 2 ^ 41) (-41) (by norm_num) (by norm_num)
    (by norm_num) (by decide)]
  norm_num

theorem mul_five_thousand : (JSNum.fin 5).mul (.fin 1000) = .fin 5000 := by
  simp only [JSNum.mul]
  rw [roundDouble_of (5 * 1000) 5000 1 (5000 * 2 ^ 40) (-40) (by norm_num) (by norm_num)
    (by norm_num) (by decide)]
  norm_num

theorem mul_hundred_thousand : (JSNum.fin 100).mul (.fin 1000) = .fin 100000 := by
  simp only [JSNum.mul]
  rw [roundDouble_of (100 * 1000) 100000 1 (100000 * 2 ^ 36) (-36) (by norm_num) (by norm_num)
    (by norm_num) (by decide)]
  norm_num

theorem numeralFive_value : numeralFive.value = 5 := by
  have h : digitsNat [5] = 5 := by decide
  have h0 : digitsNat [] = 0 := by decide
  simp [numeralFive, Numeral.value, h, h0, Numeral.expValue]

theorem numeralHundred_value : numeralHundred.value = 100 := by
  have h : digitsNat [1] = 1 := by decide
  have h2 : digitsNat [2] = 2 := by decide
  have h0 : digitsNat [] = 0 := by decide
  simp [numeralHundred, Numeral.value, h, h0, h2, Numeral.expValue]
  norm_num

theorem numeralFraction_value : numeralFraction.value = 201 / 200 := by
  have h : digitsNat [1] = 1 := by decide
  have h2 : digitsNat [0, 0, 5] = 5 := by decide
  simp [numeralFraction, Numeral.value, h, h2, Numeral.expValue]
  norm_num

/-- The header `1.005`: the double nearest to 1.005 is below it, and so is
the rounded product with 1000, which is the double printed as
`1004.9999999999999`. -/
theorem retryAfter_fraction :
    numeralFraction.text = "1.005" ∧
    retryAfter (.str "1.005") = .fin (4526117625507348 / 2 ^ 52) ∧
    (retryAfter (.str "1.005")).mul (.fin 1000) = .fin (8840073487319039 / 2 ^ 43) ∧
    (JSNum.fin (8840073487319039 / 2 ^ 43)).toString = "1004.9999999999999" := by
  have htext : numeralFraction.text = "1.005" := by decide
  have hround : roundDouble (201 / 200) = .fin (4526117625507348 / 2 ^ 52) := by
    rw [roundDouble_of (201 / 200) 201 200 4526117625507348 (-52) (by norm_num) (by norm_num)
      (by norm_num) (by decide)]
    norm_num
  have hr : retryAfter (.str "1.005") = .fin (4526117625507348 / 2 ^ 52) := by
    rw [← htext, retryAfter_numeral numeralFraction ⟨by decide, by decide⟩,
      numeralFraction_value, hround]
  refine ⟨htext, hr, ?_, ?_⟩
  · rw [hr]
    simp only [JSNum.mul]
    rw [roundDouble_of _ 141441175797104625 140737488355328 8840073487319039 (-43)
      (by norm_num) (by norm_num) (by norm_num) (by decide)]
    norm_num
  · have hn : ((8840073487319039 : ℚ) / 2 ^ 43).num.natAbs = 8840073487319039 := by norm_num
    have hd : ((8840073487319039 : ℚ) / 2 ^ 43).den = 8796093022208 := by norm_num
    have h0 : ¬ ((8840073487319039 : ℚ) / 2 ^ 43 = 0) := by norm_num
    have hneg : ¬ ((8840073487319039 : ℚ) / 2 ^ 43 < 0) := by norm_num
    have hs : positiveToString 8840073487319039 8796093022208 = "1004.9999999999999" := by
      decide
    simp only [JSNum.toString, h0, hneg, if_false, hn, hd, hs]

/-- The header `1e400`: its value is beyond the doubles, the Number is
Infinity and so is the delay. -/
theorem retryAfter_huge :
    numeralHuge.text = "1e400" ∧
    retryAfter (.str "1e400") = .posInf ∧
    (retryAfter (.str "1e400")).mul (.fin 1000) = .posInf := by
  have htext : numeralHuge.text = "1e400" := by decide
  have hval : numeralHuge.value = ((10 ^ 400 : ℕ) : ℚ) := by
    have h : digitsNat [1] = 1 := by decide
    have h2 : digitsNat [4, 0, 0] = 400 := by decide
    have h0 : digitsNat [] = 0 := by decide
    simp only [numeralHuge, Numeral.value, h, h0, h2, Numeral.expValue, Option.getD_none,
      List.length_nil, Bool.false_eq_true, if_false, pow_zero, Nat.cast_zero, zero_div, add_zero,
      Nat.cast_one, one_mul, Nat.cast_ofNat, zpow_natCast]
    norm_cast
  have hround : roundDouble ((10 ^ 400 : ℕ) : ℚ) = .posInf := by
    have h : nearestDouble (10 ^ 400) 1 = none := by decide
    have h0 : ((10 ^ 400 : ℕ) : ℚ) ≠ 0 := by
      exact_mod_cast (pow_pos (by norm_num : 0 < 10) 400).ne'
    have hpos : ¬ (((10 ^ 400 : ℕ) : ℚ) < 0) := not_lt.mpr (Nat.cast_nonneg _)
    unfold roundDouble
    rw [if_neg h0, Rat.num_natCast, Rat.den_natCast, Int.natAbs_ofNat, h]
    simp only [hpos, if_false]
  have hr : retryAfter (.str "1e400") = .posInf := by
    rw [← htext, retryAfter_numeral numeralHuge ⟨by decide, by decide⟩, hval, hround]
  refine ⟨htext, hr, ?_⟩
  rw [hr]
  simp [JSNum.mul]

/-! ## Rate limiting -/

/-- C3 (rate-limit retry). Take a reachable state in which the POST of
`payload` is in flight and let it fail with status 429 and a `retry-after`
header that is a decimal numeral (sign, digits, optional fraction, optional
exponent).  Let `r` be the Number the numeral denotes, that is its value
rounded to a double.  Then the activation arms a timer with the product
`r * 1000` (the product of doubles) and keeps `payload`; whatever is enqueued
during the wait only joins the tail of the queue and no POST is made; and
when the timer fires `payload` is put back at the head of the queue and the
loop posts it again, so that the next attempt after the failed one is
`payload`. -/
theorem rate_limit_retry {P : Type} (es : List (QueueEvent P)) (q : WebhookQueue P)
    (payload : P) (n : Numeral) (extra : List P)
    (hrun : WebhookQueue.new.run es = some q) (hpost : q.drains = [.posting payload])
    (hwf : n.WellFormed) :
    ∃ q1 q2 q3 : WebhookQueue P,
      q.postSettled 0 (.rejected429 (.str n.text)) = some q1 ∧
      q1.drains = [.rateLimited payload ((roundDouble n.value).mul (.fin 1000))] ∧
      q1.queue = q.queue ∧ q1.attempts = q.attempts ∧
      q1.run (extra.map QueueEvent.enqueue) = some q2 ∧
      q2.drains = [.rateLimited payload ((roundDouble n.value).mul (.fin 1000))] ∧
      q2.queue = q.queue ++ extra ∧ q2.attempts = q.attempts ∧
      q2.timerFired 0 = some q3 ∧
      q3 = ({ q2 with queue := payload :: q2.queue } : WebhookQueue P).continueAt 0 ∧
      q3.drains = [.posting payload] ∧
      q3.queue = q.queue ++ extra ∧ q3.attempts = q.attempts ++ [payload] := by
  have inv := WebhookQueue.inv_run es _ q WebhookQueue.inv_new hrun
  have hs : q.sending = true := by
    rcases inv.exclusive with ⟨hd, _, _⟩ | ⟨d, _, hs⟩
    · simp [hd] at hpost
    · exact hs
  have hms : (retryAfter (.str n.text)).mul (.fin 1000)
      = (roundDouble n.value).mul (.fin 1000) := by
    rw [retryAfter_numeral n hwf]
  refine ⟨{ q with
      outcomes := q.outcomes ++ [.rejected429 (.str n.text)]
      drains := [.rateLimited payload ((roundDouble n.value).mul (.fin 1000))] }, _, _, ?_,
    rfl, rfl, rfl, WebhookQueue.run_enqueues extra _ hs, rfl, rfl, rfl, ?_, rfl, ?_, ?_, ?_⟩
  · simp [WebhookQueue.postSettled, hpost, hms]
  · simp [WebhookQueue.timerFired]
  · simp [WebhookQueue.continueAt, WebhookQueue.loop]
  · simp [WebhookQueue.continueAt, WebhookQueue.loop]
  · simp [WebhookQueue.continueAt, WebhookQueue.loop]

/-- C3, at concrete headers: `retry-after: 5` arms 5000 ms and
`retry-after: 1e2` arms 100000 ms, while payload 2 waits and payload 3
arrives during the wait. -/
theorem rate_limit_retry_witness :
    WebhookQueue.new.run [.enqueue 1, .enqueue 2] = some examplePosting ∧
    numeralFive.text = "5" ∧ (roundDouble numeralFive.value).mul (.fin 1000) = .fin 5000 ∧
    numeralHundred.text = "1e2" ∧
    (roundDouble numeralHundred.value).mul (.fin 1000) = .fin 100000 ∧
    (∃ q1 q2 q3 : WebhookQueue Nat,
      examplePosting.postSettled 0 (.rejected429 (.str numeralFive.text)) = some q1 ∧
      q1.drains = [.rateLimited 1 ((roundDouble numeralFive.value).mul (.fin 1000))] ∧
      q1.queue = examplePosting.queue ∧ q1.attempts = examplePosting.attempts ∧
      q1.run ([3].map QueueEvent.enqueue) = some q2 ∧
      q2.drains = [.rateLimited 1 ((roundDouble numeralFive.value).mul (.fin 1000))] ∧
      q2.queue = examplePosting.queue ++ [3] ∧ q2.attempts = examplePosting.attempts ∧
      q2.timerFired 0 = some q3 ∧
      q3 = ({ q2 with queue := 1 :: q2.queue } : WebhookQueue Nat).continueAt 0 ∧
      q3.drains = [.posting 1] ∧
      q3.queue = examplePosting.queue ++ [3] ∧
      q3.attempts = examplePosting.attempts ++ [1]) ∧
    (∃ q1 : WebhookQueue Nat,
      examplePosting.postSettled 0 (.rejected429 (.str numeralHundred.text)) = some q1 ∧
      q1.drains
        = [.rateLimited 1 ((roundDouble numeralHundred.value).mul (.fin 1000))]) :=
  ⟨rfl, by decide, by rw [numeralFive_value, roundDouble_five, mul_five_thousand],
    by decide, by rw [numeralHundred_value, roundDouble_hundred, mul_hundred_thousand],
    rate_limit_retry [.enqueue 1, .enqueue 2] examplePosting 1 numeralFive [3] rfl rfl
      ⟨by decide, by decide⟩,
    (rate_limit_retry [.enqueue 1, .enqueue 2] examplePosting 1 numeralHundred [] rfl rfl
      ⟨by decide, by decide⟩).elim fun q1 h => ⟨q1, h.choose_spec.choose_spec.1,
        h.choose_spec.choose_spec.2.1⟩⟩

theorem parseFloat_empty : parseFloat (.str "") = .nan := by
  have h : strDecimalLiteral "" = .notNumeric := by decide
  simp [parseFloat, JSVal.render, h, StrDecimal.toNum]

theorem JSNum.toString_three : (JSNum.fin 3).toString = "3" := by
  have hs : positiveToString 3 1 = "3" := by decide
  have hn : (3 : ℚ).num.natAbs = 3 := by norm_num
  have hd : (3 : ℚ).den = 1 := by norm_num
  have h0 : ¬ ((3 : ℚ) = 0) := by norm_num
  have hneg : ¬ ((3 : ℚ) < 0) := by norm_num
  simp only [JSNum.toString, h0, hneg, if_false, hn, hd, hs]

theorem retryAfter_absent : retryAfter .undefined = .fin 3 := by
  have h : strDecimalLiteral "3" = .decimal false 3 0 := by decide
  have hv : decimalValue false 3 0 = 3 := by
    rw [decimalValue_eq]
    norm_num
  simp only [retryAfter, JSVal.or, JSVal.truthy, Bool.false_eq_true, if_false, parseFloat,
    JSVal.render, JSNum.toString_three, h, StrDecimal.toNum, hv, roundDouble_three]

theorem retryAfter_http_date :
    retryAfter (.str "Wed, 21 Oct 2015 07:28:00 GMT") = .nan := by
  have h : strDecimalLiteral "Wed, 21 Oct 2015 07:28:00 GMT" = .notNumeric := by decide
  have ht : (JSVal.str "Wed, 21 Oct 2015 07:28:00 GMT").truthy = true := by decide
  simp [retryAfter, JSVal.or, ht, parseFloat, JSVal.render, h, StrDecimal.toNum]

/-- C4 (retry-after default). With no `retry-after` header, or an empty one,
the 429 branch arms its timer with 3000 ms.  With a header that is there and
is no number (here an HTTP date) the code computes `parseFloat` of the header
itself: the delay handed to `setTimeout` is NaN, not 3000 ms. -/
theorem retry_after_default_missed :
    (retryAfter .undefined).mul (.fin 1000) = .fin 3000 ∧
    (retryAfter (.str "")).mul (.fin 1000) = .fin 3000 ∧
    (retryAfter (.str "Wed, 21 Oct 2015 07:28:00 GMT")).mul (.fin 1000) = .nan ∧
    (examplePosting.postSettled 0
        (.rejected429 (.str "Wed, 21 Oct 2015 07:28:00 GMT"))).map WebhookQueue.drains
      = some [.rateLimited 1 .nan] ∧
    JSNum.nan ≠ JSNum.fin 3000 := by
  refine ⟨?_, ?_, ?_, ?_, ?_⟩
  · rw [retryAfter_absent, mul_three_thousand]
  · have h : retryAfter (.str "") = retryAfter .undefined := rfl
    rw [h, retryAfter_absent, mul_three_thousand]
  · rw [retryAfter_http_date]
    rfl
  · simp [WebhookQueue.postSettled, examplePosting, retryAfter_http_date, JSNum.mul]
  · simp

/-! ## The reconnect delay -/

/-- The delay after `k` doublings from 1000 ms, capped. -/
theorem backoff_double (k : Nat) :
    min (min (1000 * 2 ^ k) MAX_DELAY * 2) MAX_DELAY = min (1000 * 2 ^ (k + 1)) MAX_DELAY := by
  simp only [MAX_DELAY, pow_succ]
  omega

theorem Stream.waits_run (es : List StreamEvent) :
    ∀ (s s1 : Stream) (j : Nat), s.reconnectDelay = min (1000 * 2 ^ j) MAX_DELAY →
      StreamEvent.opened ∉ es → s.run es = some s1 →
      (s.socket ≠ .closed →
        s1.waits = s.waits ++
          (List.range' j (es.count .closed)).map (fun k => min (1000 * 2 ^ k) MAX_DELAY)) ∧
      (s.socket = .closed →
        s1.waits = s.waits ++
          (List.range' (j + 1) (es.count .closed)).map (fun k => min (1000 * 2 ^ k) MAX_DELAY)) := by
  induction es with
  | nil =>
    intro s s1 j _ _ hrun
    simp only [Stream.run, Option.some.injEq] at hrun
    subst hrun
    simp
  | cons e es ih =>
    intro s s1 j hd hno hrun
    have hno1 : StreamEvent.opened ∉ es := fun h => hno (List.mem_cons_of_mem _ h)
    have hne : e ≠ StreamEvent.opened := fun h => hno (h ▸ List.mem_cons_self _ _)
    obtain ⟨delay, socket, waits⟩ := s
    simp only at hd
    simp only [Stream.run] at hrun
    cases e with
    | opened => exact absurd rfl hne
    | errored =>
      cases socket <;> simp only [Stream.step, Option.some_bind, Option.none_bind] at hrun
      · have := ih _ s1 j hd hno1 hrun
        simpa using this
      · have := ih _ s1 j hd hno1 hrun
        simpa using this
      · cases hrun
    | closed =>
      cases socket <;> simp only [Stream.step, Option.some_bind, Option.none_bind] at hrun
      · have := (ih _ s1 j hd hno1 hrun).2 rfl
        simp [this, hd, List.range'_succ]
      · have := (ih _ s1 j hd hno1 hrun).2 rfl
        simp [this, hd, List.range'_succ]
      · cases hrun
    | timerFired =>
      cases socket <;> simp only [Stream.step, Option.some_bind, Option.none_bind] at hrun
      · cases hrun
      · cases hrun
      · have hd1 : min (delay * 2) MAX_DELAY = min (1000 * 2 ^ (j + 1)) MAX_DELAY := by
          rw [hd]
          exact backoff_double j
        have := (ih _ s1 (j + 1) hd1 hno1 hrun).1 (by simp)
        simpa using this

theorem backoff_mono {i j : Nat} (h : i ≤ j) :
    min (1000 * 2 ^ i) MAX_DELAY ≤ min (1000 * 2 ^ j) MAX_DELAY := by
  have hpow : 2 ^ i ≤ 2 ^ j := Nat.pow_le_pow_right (by decide) h
  simp only [MAX_DELAY]
  omega

/-- C6 (reconnect backoff). Start from the initial state, or from the state
just after an open event, and let any events follow that include no open
event.  Then the delays given to the reconnect timer by the close events are,
in order, `min (1000 * 2 ^ k) 30000` for `k = 0, 1, 2, ...`: they never
decrease and never exceed 30000 ms.  In particular the first close after an
open event waits 1000 ms again. -/
theorem reconnect_backoff (s0 s : Stream) (es : List StreamEvent)
    (hfresh : s0 = Stream.start ∨ ∃ t : Stream, t.step .opened = some s0)
    (hno : StreamEvent.opened ∉ es) (hrun : s0.run es = some s) :
    s.waits = s0.waits ++
      (List.range (es.count .closed)).map (fun k => min (1000 * 2 ^ k) 30000) ∧
    ((List.range (es.count .closed)).map (fun k => min (1000 * 2 ^ k) 30000)).Pairwise
      (fun a b => a ≤ b) ∧
    (∀ w ∈ (List.range (es.count .closed)).map (fun k => min (1000 * 2 ^ k) 30000),
      w ≤ 30000) ∧
    (∀ s1 : Stream, s0.step .closed = some s1 → s1.waits = s0.waits ++ [1000]) := by
  have h0 : s0.reconnectDelay = min (1000 * 2 ^ 0) MAX_DELAY ∧ s0.socket ≠ .closed := by
    rcases hfresh with h | ⟨t, ht⟩
    · subst h
      simp [Stream.start, MAX_DELAY]
    · obtain ⟨delay, socket, waits⟩ := t
      cases socket <;> simp only [Stream.step] at ht
      · cases ht
        simp [MAX_DELAY]
      · cases ht
      · cases ht
  refine ⟨?_, ?_, ?_, ?_⟩
  · have := (Stream.waits_run es s0 s 0 h0.1 hno hrun).1 h0.2
    rw [this, List.range_eq_range']
    rfl
  · rw [List.pairwise_map]
    exact (List.pairwise_lt_range _).imp (fun hab => backoff_mono (Nat.le_of_lt hab))
  · intro w hw
    obtain ⟨k, _, hk⟩ := List.mem_map.mp hw
    rw [← hk]
    exact Nat.min_le_right _ _
  · intro s1 hs1
    obtain ⟨delay, socket, waits⟩ := s0
    have hd : delay = 1000 := by simpa [MAX_DELAY] using h0.1
    cases socket <;> simp only [Stream.step] at hs1
    · cases hs1
      simp [hd]
    · cases hs1
      simp [hd]
    · cases hs1

/-- C6, at a concrete trace: seven closes in a row from the start. -/
theorem reconnect_backoff_witness :
    Stream.start.run
        [.closed, .timerFired, .closed, .timerFired, .closed, .timerFired, .closed,
         .timerFired, .closed, .timerFired, .closed, .timerFired, .closed]
      = some { reconnectDelay := 30000, socket := .closed,
               waits := [1000, 2000, 4000, 8000, 16000, 30000, 30000] } ∧
    ({ reconnectDelay := 30000, socket := .closed,
       waits := [1000, 2000, 4000, 8000, 16000, 30000, 30000] } : Stream).waits
      = Stream.start.waits ++
          (List.range (List.count StreamEvent.closed
            [.closed, .timerFired, .closed, .timerFired, .closed, .timerFired, .closed,
             .timerFired, .closed, .timerFired, .closed, .timerFired, .closed])).map
            (fun k => min (1000 * 2 ^ k) 30000) :=
  ⟨by decide, (reconnect_backoff Stream.start _ _ (Or.inl rfl) (by decide) (by decide)).1⟩

/-! ## The profile cache -/

theorem ProfileCache.get_set_self (key : JSVal) (e : CacheEntry)
    (hkey : key.sameValueZero key = true) :
    ∀ cache : ProfileCache, (cache.set key e).get key = some e := by
  intro cache
  induction cache with
  | nil => simp [ProfileCache.set, ProfileCache.get, hkey]
  | cons entry rest ih =>
    obtain ⟨k, e0⟩ := entry
    cases hk : k.sameValueZero key <;> simp [ProfileCache.set, ProfileCache.get, hk, ih]

theorem getProfileCached_none_mono (cache : ProfileCache) (now t : Nat) (code : JSVal)
    (hle : now ≤ t) (h : getProfileCached cache now code = none) :
    getProfileCached cache t code = none := by
  unfold getProfileCached at h ⊢
  cases hget : cache.get code with
  | none => rfl
  | some cached =>
    simp only [hget] at h ⊢
    by_cases hexp : cached.expiresAt > now
    · simp [hexp] at h
    · have : ¬ cached.expiresAt > t := by omega
      simp [this]

theorem List.eraseIdx_snoc_length {α : Type} (l : List α) (a : α) :
    (l ++ [a]).eraseIdx l.length = l := by
  rw [List.eraseIdx_append_of_length_le (Nat.le_refl _)]
  simp

theorem JSNum.eq_of_sameNumber (a b : JSNum) (h : a.sameValueZero b = true) : a = b := by
  cases a <;> cases b <;> simp_all [JSNum.sameValueZero]

theorem JSVal.eq_of_sameValueZero (a b : JSVal) (h : a.sameValueZero b = true) : a = b := by
  cases a <;> cases b <;> simp_all [JSVal.sameValueZero]
  exact JSNum.eq_of_sameNumber _ _ h

theorem ProfileCache.get_set_other (key id : JSVal) (e : CacheEntry) (hne : key ≠ id) :
    ∀ cache : ProfileCache, (cache.set key e).get id = cache.get id := by
  intro cache
  induction cache with
  | nil =>
    have : key.sameValueZero id = false := by
      cases h : key.sameValueZero id
      · rfl
      · exact absurd (JSVal.eq_of_sameValueZero _ _ h) hne
    simp [ProfileCache.set, ProfileCache.get, this]
  | cons entry rest ih =>
    obtain ⟨k, e0⟩ := entry
    cases hk : k.sameValueZero key
    · cases hid : k.sameValueZero id <;> simp [ProfileCache.set, ProfileCache.get, hk, hid, ih]
    · have hkk : k = key := JSVal.eq_of_sameValueZero _ _ hk
      have hid : k.sameValueZero id = false := by
        cases h : k.sameValueZero id
        · rfl
        · exact absurd (hkk ▸ JSVal.eq_of_sameValueZero _ _ h) hne
      simp [ProfileCache.set, ProfileCache.get, hk, hid]

theorem getProfileSettled_get_other (cache : ProfileCache) (now : Nat) (key id : JSVal)
    (r : GetResult) (hne : key ≠ id) :
    (getProfileSettled cache now key r).1.get id = cache.get id := by
  cases r with
  | rejected => rfl
  | fulfilled body =>
    simp only [getProfileSettled]
    cases body.getProp "data" with
    | error err => rfl
    | ok d => exact ProfileCache.get_set_other key id _ hne cache

/-- While the entry stored by a lookup of `code` at `t0` is in the cache and
no lookup of `code` is pending, calls of `getProfile(code)` before the expiry
and any other events keep it so, and no GET for `code` is issued. -/
theorem Profiles.run_entry_kept (code : String) (d : JSVal) (t0 : Nat)
    (es : List ProfileEvent) :
    ∀ (s s1 : Profiles Unit) (returned returned1 : List JSVal),
      s.profileCache.get (.str code) = some { data := d, expiresAt := t0 + 600000 } →
      (∀ l ∈ s.lookups, l.profileCode ≠ .str code) →
      (∀ t, ProfileEvent.call (.str code) t ∈ es → t < t0 + 600000) →
      Profiles.run s returned es = some (s1, returned1) →
      s1.profileCache.get (.str code) = some { data := d, expiresAt := t0 + 600000 } ∧
      (∀ l ∈ s1.lookups, l.profileCode ≠ .str code) ∧
      s1.upstreamCalls (.str code) = s.upstreamCalls (.str code) := by
  induction es with
  | nil =>
    intro s s1 returned returned1 hentry hpend _ hrun
    simp only [Profiles.run, Option.some.injEq, Prod.mk.injEq] at hrun
    obtain ⟨rfl, _⟩ := hrun
    exact ⟨hentry, hpend, rfl⟩
  | cons e es ih =>
    intro s s1 returned returned1 hentry hpend hok hrun
    have hok1 : ∀ t, ProfileEvent.call (.str code) t ∈ es → t < t0 + 600000 :=
      fun t ht => hok t (List.mem_cons_of_mem _ ht)
    cases e with
    | call c t =>
      simp only [Profiles.run] at hrun
      cases hc : getProfileCached s.profileCache t c with
      | some data =>
        simp only [Profiles.getProfile, hc] at hrun
        exact ih s s1 _ returned1 hentry hpend hok1 hrun
      | none =>
        simp only [Profiles.getProfile, hc] at hrun
        have hne : c ≠ .str code := by
          intro h
          subst h
          have ht : t < t0 + 600000 := hok t (List.mem_cons_self _ _)
          simp [getProfileCached, hentry, ht] at hc
        have hsv : c.sameValueZero (.str code) = false := by
          cases h : c.sameValueZero (.str code)
          · rfl
          · exact absurd (JSVal.eq_of_sameValueZero _ _ h) hne
        have := ih _ s1 _ returned1 (by simpa using hentry)
          (by
            intro l hl
            simp only [List.mem_append, List.mem_singleton] at hl
            rcases hl with hl | hl
            · exact hpend l hl
            · subst hl; exact hne)
          hok1 hrun
        refine ⟨this.1, this.2.1, ?_⟩
        rw [this.2.2]
        simp [Profiles.upstreamCalls, List.countP_append, hsv]
    | settled i r =>
      simp only [Profiles.run] at hrun
      cases hl : s.lookups.get? i with
      | none =>
        simp only [Profiles.settled, hl] at hrun
        cases hrun
      | some l =>
        simp only [Profiles.settled, hl] at hrun
        have hne : l.profileCode ≠ .str code := hpend l (List.get?_mem hl)
        have := ih _ s1 _ returned1
          (by
            simp only
            rw [getProfileSettled_get_other _ _ _ _ _ hne]
            exact hentry)
          (by
            intro l1 hl1
            exact hpend l1 (List.mem_of_mem_eraseIdx hl1))
          hok1 hrun
        exact ⟨this.1, this.2.1, this.2.2⟩

/-- C7, as stated, fails: `getProfile("A1")` at time 0 finds no entry and its
GET succeeds later; a second call at time 1, inside the TTL window but before
the first GET has settled, finds no entry either and issues a second GET. -/
theorem cache_round_trip_race :
    getProfileCached (Profiles.new : Profiles Unit).profileCache 0 (.str "A1") = none ∧
    (1 : Nat) < 0 + 600000 ∧
    (Profiles.run Profiles.new [] (exampleRace.take 2)).map (fun r => (r.1.upstream, r.2))
      = some ([.str "A1", .str "A1"], []) ∧
    (Profiles.run Profiles.new [] exampleRace).map (fun r => (r.1.upstream, r.2))
      = some ([.str "A1", .str "A1"], [exampleProfile, exampleProfile]) :=
  ⟨rfl, by decide, rfl, rfl⟩

/-- C7, amended.  Let `getProfile(code)` be called at `t0` while no lookup
of `code` is pending, let it find no live entry, and let its GET settle next
with data `d`: the call returns `d` and one GET for `code` has been issued.
Let any events follow (calls for any profile, settled GETs) in which
`getProfile(code)` is called only at times before `t0 + 600000`.  Then no
further GET for `code` is issued, so that exactly one has been issued in all;
and in the state reached a call `getProfile(code)` at a time before
`t0 + 600000` returns `d` and changes nothing, while a call at a time from
`t0 + 600000` on issues a second GET. -/
theorem cache_round_trip (s s1 : Profiles Unit) (returned returned1 : List JSVal)
    (t0 t : Nat) (code : String) (body d : JSVal) (es : List ProfileEvent)
    (hpend : ∀ l ∈ s.lookups, l.profileCode ≠ .str code)
    (hmiss : getProfileCached s.profileCache t0 (.str code) = none)
    (hbody : body.getProp "data" = .ok d)
    (hok : ∀ x, ProfileEvent.call (.str code) x ∈ es → x < t0 + 600000)
    (hrun : Profiles.run s returned
      ([.call (.str code) t0, .settled s.lookups.length (.fulfilled body)] ++ es)
        = some (s1, returned1)) :
    Profiles.run s returned [.call (.str code) t0, .settled s.lookups.length (.fulfilled body)]
      = some ({ s with
          profileCache := s.profileCache.set (.str code) { data := d, expiresAt := t0 + 600000 }
          upstream := s.upstream ++ [.str code] }, returned ++ [d]) ∧
    s1.upstreamCalls (.str code) = s.upstreamCalls (.str code) + 1 ∧
    (t < t0 + 600000 → s1.getProfile t (.str code) () = (s1, some d)) ∧
    (t0 + 600000 ≤ t →
      (s1.getProfile t (.str code) ()).2 = none ∧
      (s1.getProfile t (.str code) ()).1.upstreamCalls (.str code)
        = s.upstreamCalls (.str code) + 2) := by
  have hself : (JSVal.str code).sameValueZero (.str code) = true := by
    simp [JSVal.sameValueZero]
  have hfirst : Profiles.run s returned
      [.call (.str code) t0, .settled s.lookups.length (.fulfilled body)]
      = some ({ s with
          profileCache := s.profileCache.set (.str code) { data := d, expiresAt := t0 + 600000 }
          upstream := s.upstream ++ [.str code] }, returned ++ [d]) := by
    simp [Profiles.run, Profiles.getProfile, hmiss, Profiles.settled, getProfileSettled, hbody,
      List.eraseIdx_snoc_length]
  have hrun2 : Profiles.run
      ({ s with
          profileCache := s.profileCache.set (.str code) { data := d, expiresAt := t0 + 600000 }
          upstream := s.upstream ++ [.str code] }) (returned ++ [d]) es
        = some (s1, returned1) := by
    simpa [Profiles.run, Profiles.getProfile, hmiss, Profiles.settled, getProfileSettled,
      hbody, List.eraseIdx_snoc_length] using hrun
  have kept := Profiles.run_entry_kept code d t0 es
    ({ s with
        profileCache := s.profileCache.set (.str code) { data := d, expiresAt := t0 + 600000 }
        upstream := s.upstream ++ [.str code] }) s1 _ returned1
    (ProfileCache.get_set_self _ _ hself _) hpend hok hrun2
  have hcount : s1.upstreamCalls (.str code) = s.upstreamCalls (.str code) + 1 := by
    rw [kept.2.2]
    simp [Profiles.upstreamCalls, List.countP_append, hself]
  refine ⟨hfirst, hcount, ?_, ?_⟩
  · intro ht
    have : getProfileCached s1.profileCache t (.str code) = some d := by
      simp [getProfileCached, kept.1, ht]
    simp [Profiles.getProfile, this]
  · intro ht
    have : getProfileCached s1.profileCache t (.str code) = none := by
      have hn : ¬ t0 + 600000 > t := by omega
      simp [getProfileCached, kept.1, hn]
    simp [Profiles.getProfile, this, Profiles.upstreamCalls, List.countP_append, hself]
    simpa [Profiles.upstreamCalls] using hcount

/-- C7 amended, at a concrete run: a miss at time 0, the GET succeeds, then
another profile is looked up and `A1` is looked up twice more inside the
window: one GET for `A1` in all. -/
theorem cache_round_trip_witness :
    Profiles.run Profiles.new []
        ([.call (.str "A1") 0, .settled 0 (.fulfilled exampleBody)] ++
          [.call (.str "B2") 5, .call (.str "A1") 10, .call (.str "A1") 599999])
      = some ({ profileCache := [(.str "A1", { data := exampleProfile, expiresAt := 600000 })],
                lookups := [{ profileCode := .str "B2", now := 5, caller := () }],
                upstream := [.str "A1", .str "B2"] },
              [exampleProfile, exampleProfile, exampleProfile]) ∧
    ({ profileCache := [(.str "A1", { data := exampleProfile, expiresAt := 600000 })],
       lookups := [{ profileCode := .str "B2", now := 5, caller := () }],
       upstream := [.str "A1", .str "B2"] } : Profiles Unit).upstreamCalls (.str "A1")
      = (Profiles.new : Profiles Unit).upstreamCalls (.str "A1") + 1 :=
  ⟨rfl,
    (cache_round_trip Profiles.new
      { profileCache := [(.str "A1", { data := exampleProfile, expiresAt := 600000 })],
        lookups := [{ profileCode := .str "B2", now := 5, caller := () }],
        upstream := [.str "A1", .str "B2"] }
      [] [exampleProfile, exampleProfile, exampleProfile] 0 0 "A1" exampleBody exampleProfile
      [.call (.str "B2") 5, .call (.str "A1") 10, .call (.str "A1") 599999]
      (by simp [Profiles.new]) rfl rfl
      (by
        intro x hx
        simp only [List.mem_cons, ProfileEvent.call.injEq, JSVal.str.injEq, List.mem_singleton,
          List.not_mem_nil, or_false] at hx
        rcases hx with ⟨h, _⟩ | ⟨_, rfl⟩ | ⟨_, rfl⟩
        · exact absurd h (by decide)
        · decide
        · decide)
      rfl).2.1⟩

/-- C8, as stated, fails: a fulfilled GET whose body is `{}` (no `data`), or
`{"data": {}}` (no `profileImageUrl`), is cached like any other; `getProfile`
returns `undefined`, or the empty profile, and not `null`, and the next call
inside the TTL window is answered from the cache. -/
theorem malformed_body_is_cached :
    getProfileSettled [] 0 (.str "A1") (.fulfilled (.obj []))
      = ([(.str "A1", { data := .undefined, expiresAt := 600000 })], .undefined) ∧
    getProfileCached [(.str "A1", { data := .undefined, expiresAt := 600000 })] 1 (.str "A1")
      = some .undefined ∧
    getProfileSettled [] 0 (.str "A1") (.fulfilled (.obj [("data", .obj [])]))
      = ([(.str "A1", { data := .obj [], expiresAt := 600000 })], .obj []) ∧
    getProfileCached [(.str "A1", { data := .obj [], expiresAt := 600000 })] 1 (.str "A1")
      = some (.obj []) :=
  ⟨rfl, rfl, rfl, rfl⟩

/-- C8, amended.  When the GET of a suspended `getProfile` is rejected
(network error, timeout, status outside 2xx), or is fulfilled with a body
that is `null` or `undefined`, the call returns `null` and `profileCache` is
left exactly as it was when the GET settled.  When the call had found no
live entry and its GET settles next, a further call for the same code, at a
time not before the first, issues a GET again.  A GET fulfilled with any
other body is cached whatever its shape: the `data` field of the body
(`undefined` when there is none) is stored under the code with expiry
`now + 600000` and returned. -/
theorem lookup_failure_not_cached {κ : Type} (s1 : Profiles κ) (i : Nat) (l : Lookup κ)
    (s : Profiles Unit) (returned : List JSVal) (code : JSVal) (t0 t : Nat) (r : GetResult)
    (hlookup : s1.lookups.get? i = some l)
    (hfail : r = .rejected ∨ r = .fulfilled .null ∨ r = .fulfilled .undefined)
    (hmiss : getProfileCached s.profileCache t0 code = none)
    (hlater : t0 ≤ t) :
    s1.settled i r = some ({ s1 with lookups := s1.lookups.eraseIdx i }, l.caller, .null) ∧
    Profiles.run s returned [.call code t0, .settled s.lookups.length r]
      = some ({ s with upstream := s.upstream ++ [code] }, returned ++ [.null]) ∧
    Profiles.run s returned [.call code t0, .settled s.lookups.length r, .call code t]
      = some ({ s with
          lookups := s.lookups ++ [{ profileCode := code, now := t, caller := () }]
          upstream := s.upstream ++ [code, code] }, returned ++ [.null]) ∧
    (∀ body : JSVal, body ≠ .null → body ≠ .undefined →
      ∃ d : JSVal, body.getProp "data" = .ok d ∧
        s1.settled i (.fulfilled body)
          = some ({ s1 with
              profileCache :=
                s1.profileCache.set l.profileCode { data := d, expiresAt := l.now + 600000 }
              lookups := s1.lookups.eraseIdx i }, l.caller, d)) := by
  have hnone := getProfileCached_none_mono s.profileCache t0 t code hlater hmiss
  have hsettle : ∀ r, (r = GetResult.rejected ∨ r = .fulfilled .null ∨ r = .fulfilled .undefined) →
      ∀ cache now key, getProfileSettled cache now key r = (cache, .null) := by
    intro r hr cache now key
    rcases hr with h | h | h <;> subst h <;> rfl
  refine ⟨?_, ?_, ?_, ?_⟩
  · simp only [Profiles.settled, hlookup, hsettle r hfail]
  · simp [Profiles.run, Profiles.getProfile, hmiss, Profiles.settled, hsettle r hfail,
      List.eraseIdx_snoc_length]
  · simp [Profiles.run, Profiles.getProfile, hmiss, Profiles.settled, hsettle r hfail, hnone,
      List.eraseIdx_snoc_length]
  · intro body hnull hundef
    cases body with
    | null => exact absurd rfl hnull
    | undefined => exact absurd rfl hundef
    | obj fields =>
      exact ⟨_, rfl, by simp only [Profiles.settled, hlookup, getProfileSettled, JSVal.getProp]⟩
    | bool b =>
      exact ⟨_, rfl, by simp only [Profiles.settled, hlookup, getProfileSettled, JSVal.getProp]⟩
    | num n =>
      exact ⟨_, rfl, by simp only [Profiles.settled, hlookup, getProfileSettled, JSVal.getProp]⟩
    | str v =>
      exact ⟨_, rfl, by simp only [Profiles.settled, hlookup, getProfileSettled, JSVal.getProp]⟩
    | arr items =>
      exact ⟨_, rfl, by simp only [Profiles.settled, hlookup, getProfileSettled, JSVal.getProp]⟩

/-- C8 amended, at a concrete run: the lookup of `A1` is rejected, nothing
is cached, and the next lookup of `A1` issues a GET again. -/
theorem lookup_failure_not_cached_witness :
    Profiles.run Profiles.new [] [.call (.str "A1") 0, .settled 0 .rejected]
      = some ({ profileCache := [], lookups := [], upstream := [.str "A1"] }, [.null]) ∧
    Profiles.run Profiles.new [] [.call (.str "A1") 0, .settled 0 .rejected, .call (.str "A1") 5]
      = some ({ profileCache := [],
                lookups := [{ profileCode := .str "A1", now := 5, caller := () }],
                upstream := [.str "A1", .str "A1"] }, [.null]) :=
  have h := lookup_failure_not_cached
    ({ profileCache := [], lookups := [{ profileCode := .str "A1", now := 0, caller := () }],
       upstream := [.str "A1"] } : Profiles Unit) 0
    { profileCode := .str "A1", now := 0, caller := () }
    Profiles.new [] (.str "A1") 0 5 .rejected rfl (Or.inl rfl) rfl (by decide)
  ⟨h.2.1, h.2.2.1⟩

/-! ## The message handler -/

theorem buildPayload_eq_spec (profileCode nickname text : String)
    (channel timestamp : Option String) (profile : JSVal) (nowISO : String) :
    buildPayload
        { ProfileCode := .str profileCode, Nickname := .str nickname, Text := .str text,
          Channel := optField channel, timestamp := optField timestamp } profile nowISO
      = specPayload profileCode nickname text channel timestamp profile nowISO := by
  have h : ∀ (f : Option String) (d : String),
      ((optField f).or (.str d)).render = orElse f d := by
    intro f d
    cases f with
    | none => simp [optField, JSVal.or, JSVal.truthy, JSVal.render, orElse]
    | some v =>
      by_cases hv : v = "" <;>
        simp [optField, JSVal.or, JSVal.truthy, JSVal.render, orElse, hv]
  simp only [buildPayload, specPayload, h, JSVal.render]

/-- C9, as stated, fails: a message whose `Text` is the empty string has all
three fields present as strings, yet the guard of line 113 discards it and
nothing is enqueued; and an empty `Channel`, though present, is replaced by
the placeholder. -/
theorem empty_text_discarded :
    exampleEmptyText.getProp "Text" = .ok (.str "") ∧
    Relay.start.onMessage (.ok exampleEmptyText) 0 "2026-01-01T00:00:00.000Z"
      = .ok Relay.start ∧
    (buildPayload
        { ProfileCode := .str "A1", Nickname := .str "Bob", Text := .str "hi",
          Channel := .str "", timestamp := .undefined } .null "2026-01-01T00:00:00.000Z").content
      = "頻道: 未知\n內容: hi\n時間: 2026-01-01T00:00:00.000Z" := by
  refine ⟨rfl, rfl, ?_⟩
  decide

/-- C9, amended.  Let the message parse to a value whose `ProfileCode`,
`Nickname` and `Text` are non-empty strings and whose `Channel` and
`timestamp` are strings or missing.  If the cache holds a live profile the
handler enqueues at once, as its only effect, the payload of the
specification built from that profile; otherwise it only issues the GET and
is suspended, and whenever that GET settles the handler enqueues, once, the
payload built from what `getProfile` returns then.  In the payload the
placeholder and the current time also stand in for an empty `Channel` and an
empty `timestamp`. -/
theorem payload_construction (r r1 : Relay) (msg : JSVal) (profileCode nickname text : String)
    (channel timestamp : Option String) (now i : Nat) (nowISO nowISO1 : String)
    (res : GetResult)
    (hcode : msg.getProp "ProfileCode" = .ok (.str profileCode)) (hcode0 : profileCode ≠ "")
    (hnick : msg.getProp "Nickname" = .ok (.str nickname)) (hnick0 : nickname ≠ "")
    (htext : msg.getProp "Text" = .ok (.str text)) (htext0 : text ≠ "")
    (hchan : msg.getProp "Channel" = .ok (optField channel))
    (htime : msg.getProp "timestamp" = .ok (optField timestamp))
    (hsusp : r1.profiles.lookups.get? i
      = some { profileCode := .str profileCode, now := now,
               caller := { ProfileCode := .str profileCode, Nickname := .str nickname,
                           Text := .str text, Channel := optField channel,
                           timestamp := optField timestamp } }) :
    (∀ profile : JSVal,
      getProfileCached r.profiles.profileCache now (.str profileCode) = some profile →
      r.onMessage (.ok msg) now nowISO
        = .ok { r with
            webhookQueue := r.webhookQueue.enqueue
              (specPayload profileCode nickname text channel timestamp profile nowISO) }) ∧
    (getProfileCached r.profiles.profileCache now (.str profileCode) = none →
      r.onMessage (.ok msg) now nowISO
        = .ok { r with
            profiles := { r.profiles with
              lookups := r.profiles.lookups ++
                [{ profileCode := .str profileCode, now := now,
                   caller := { ProfileCode := .str profileCode, Nickname := .str nickname,
                               Text := .str text, Channel := optField channel,
                               timestamp := optField timestamp } }]
              upstream := r.profiles.upstream ++ [.str profileCode] } }) ∧
    r1.onProfileSettled i res nowISO1
      = some { r1 with
          profiles := { r1.profiles with
            profileCache :=
              (getProfileSettled r1.profiles.profileCache now (.str profileCode) res).1
            lookups := r1.profiles.lookups.eraseIdx i }
          webhookQueue := r1.webhookQueue.enqueue
            (specPayload profileCode nickname text channel timestamp
              (getProfileSettled r1.profiles.profileCache now (.str profileCode) res).2
              nowISO1) } ∧
    (∀ (q : WebhookQueue Payload) (p : Payload), (q.enqueue p).enqueued = q.enqueued ++ [p]) := by
  have hd : destructure msg
      = .ok { ProfileCode := .str profileCode, Nickname := .str nickname, Text := .str text,
              Channel := optField channel, timestamp := optField timestamp } := by
    simp only [destructure, hcode, hnick, htext, hchan, htime]
    rfl
  refine ⟨?_, ?_, ?_, ?_⟩
  · intro profile hhit
    simp [Relay.onMessage, Relay.handlerBody, bind, Except.bind, pure, Except.pure, tryCatch,
      tryCatchThe, MonadExcept.tryCatch, MonadExceptOf.tryCatch, Except.tryCatch, hd,
      JSVal.truthy, hcode0, hnick0, htext0, Profiles.getProfile, hhit, buildPayload_eq_spec]
  · intro hmiss
    simp [Relay.onMessage, Relay.handlerBody, bind, Except.bind, pure, Except.pure, tryCatch,
      tryCatchThe, MonadExcept.tryCatch, MonadExceptOf.tryCatch, Except.tryCatch, hd,
      JSVal.truthy, hcode0, hnick0, htext0, Profiles.getProfile, hmiss]
  · simp only [Relay.onProfileSettled, Profiles.settled, hsusp, buildPayload_eq_spec]
  · intro q p
    obtain ⟨queue, sending, retryDelay, drains, enqueued, attempts, delivered, outcomes⟩ := q
    cases sending <;> cases queue <;>
      simp [WebhookQueue.enqueue, WebhookQueue.process, WebhookQueue.loop]

/-- C9 amended, at the end-to-end scenario of the specification: the message
arrives with an empty cache, the lookup succeeds, one payload is enqueued. -/
theorem payload_construction_witness :
    Relay.start.onMessage (.ok exampleMessage) 0 "2026-01-01T00:00:00.000Z"
      = .ok exampleWaiting ∧
    exampleWaiting.onProfileSettled 0 (.fulfilled exampleBody) "2026-01-01T00:00:01.000Z"
      = some { exampleWaiting with
          profiles := { exampleWaiting.profiles with
            profileCache :=
              (getProfileSettled exampleWaiting.profiles.profileCache 0 (.str "A1")
                (.fulfilled exampleBody)).1
            lookups := exampleWaiting.profiles.lookups.eraseIdx 0 }
          webhookQueue := exampleWaiting.webhookQueue.enqueue
            (specPayload "A1" "Bob" "hi" (some "general") none
              (getProfileSettled exampleWaiting.profiles.profileCache 0 (.str "A1")
                (.fulfilled exampleBody)).2
              "2026-01-01T00:00:01.000Z") } ∧
    specPayload "A1" "Bob" "hi" (some "general") none exampleProfile "2026-01-01T00:00:01.000Z"
      = { username := "Bob#A1", avatar_url := .str "http://x/a.png",
          content := "頻道: general\n內容: hi\n時間: 2026-01-01T00:00:01.000Z" } :=
  have h := payload_construction Relay.start exampleWaiting exampleMessage "A1" "Bob" "hi"
    (some "general") none 0 0 "2026-01-01T00:00:00.000Z" "2026-01-01T00:00:01.000Z"
    (.fulfilled exampleBody) rfl (by decide) rfl (by decide) rfl (by decide) rfl rfl rfl
  ⟨h.2.1 rfl, h.2.2.1, rfl⟩

theorem JSVal.falsy_of_no_field (msg : JSVal) (key : String) (v : JSVal)
    (hno : msg.hasField key = false) (hget : msg.getProp key = .ok v) : v.truthy = false := by
  cases msg with
  | obj fields =>
    simp only [JSVal.hasField] at hno
    simp only [JSVal.getProp, Except.ok.injEq] at hget
    cases hl : JSVal.lookupField key fields with
    | none =>
      rw [hl] at hget
      simp only [Option.getD_none] at hget
      rw [← hget]
      rfl
    | some w => simp [hl] at hno
  | undefined => simp [JSVal.getProp] at hget
  | null => simp [JSVal.getProp] at hget
  | bool b => simp only [JSVal.getProp, Except.ok.injEq] at hget; rw [← hget]; rfl
  | num n => simp only [JSVal.getProp, Except.ok.injEq] at hget; rw [← hget]; rfl
  | str s => simp only [JSVal.getProp, Except.ok.injEq] at hget; rw [← hget]; rfl
  | arr items => simp only [JSVal.getProp, Except.ok.injEq] at hget; rw [← hget]; rfl

/-- C10 (invalid messages are discarded). When `JSON.parse` throws, or the
parsed value lacks `ProfileCode`, `Nickname` or `Text`, the handler ends
normally (no error leaves it) and the whole state is as before: nothing is
enqueued, no lookup is started, and `reconnectDelay` and the socket are
untouched. -/
theorem invalid_message_discarded (r : Relay) (parsed : Except String JSVal) (now : Nat)
    (nowISO : String)
    (hbad : (∃ err, parsed = .error err) ∨
      ∃ msg, parsed = .ok msg ∧
        (msg.hasField "ProfileCode" = false ∨ msg.hasField "Nickname" = false ∨
          msg.hasField "Text" = false)) :
    r.onMessage parsed now nowISO = .ok r ∧
    ∀ r1, r.onMessage parsed now nowISO = .ok r1 →
      r1.webhookQueue = r.webhookQueue ∧ r1.stream = r.stream ∧ r1.profiles = r.profiles := by
  have main : r.onMessage parsed now nowISO = .ok r := by
    rcases hbad with ⟨err, rfl⟩ | ⟨msg, rfl, hmissing⟩
    · rfl
    · cases hd : destructure msg with
      | error err =>
        simp [Relay.onMessage, Relay.handlerBody, bind, Except.bind, tryCatch, tryCatchThe,
          MonadExcept.tryCatch, MonadExceptOf.tryCatch, Except.tryCatch, hd, pure, Except.pure]
      | ok m =>
        have hguard : (!m.ProfileCode.truthy || !m.Nickname.truthy || !m.Text.truthy) = true := by
          cases h1 : msg.getProp "ProfileCode" with
          | error e => simp [destructure, h1, bind, Except.bind] at hd
          | ok v1 =>
            cases h2 : msg.getProp "Nickname" with
            | error e => simp [destructure, h1, h2, bind, Except.bind] at hd
            | ok v2 =>
              cases h3 : msg.getProp "Text" with
              | error e => simp [destructure, h1, h2, h3, bind, Except.bind] at hd
              | ok v3 =>
                cases h4 : msg.getProp "Channel" with
                | error e => simp [destructure, h1, h2, h3, h4, bind, Except.bind] at hd
                | ok v4 =>
                  cases h5 : msg.getProp "timestamp" with
                  | error e => simp [destructure, h1, h2, h3, h4, h5, bind, Except.bind] at hd
                  | ok v5 =>
                    simp [destructure, h1, h2, h3, h4, h5, bind, Except.bind, pure,
                      Except.pure] at hd
                    subst hd
                    rcases hmissing with h | h | h
                    · simp [JSVal.falsy_of_no_field msg _ _ h h1]
                    · simp [JSVal.falsy_of_no_field msg _ _ h h2]
                    · simp [JSVal.falsy_of_no_field msg _ _ h h3]
        simp [Relay.onMessage, Relay.handlerBody, bind, Except.bind, tryCatch, tryCatchThe,
          MonadExcept.tryCatch, MonadExceptOf.tryCatch, Except.tryCatch, hd, pure, Except.pure,
          hguard]
  refine ⟨main, ?_⟩
  intro r1 h1
  rw [main] at h1
  cases h1
  exact ⟨rfl, rfl, rfl⟩

/-- C10, at two concrete messages: a parse error, and a message without
`Text`. -/
theorem invalid_message_discarded_witness :
    Relay.start.onMessage (.error "SyntaxError") 0 "2026-01-01T00:00:00.000Z" = .ok Relay.start ∧
    Relay.start.onMessage (.ok (.obj [("ProfileCode", .str "A1"), ("Nickname", .str "Bob")])) 0
      "2026-01-01T00:00:00.000Z" = .ok Relay.start :=
  ⟨(invalid_message_discarded Relay.start (.error "SyntaxError") 0 "2026-01-01T00:00:00.000Z"
      (Or.inl ⟨_, rfl⟩)).1,
   (invalid_message_discarded Relay.start
      (.ok (.obj [("ProfileCode", .str "A1"), ("Nickname", .str "Bob")])) 0
      "2026-01-01T00:00:00.000Z" (Or.inr ⟨_, rfl, Or.inr (Or.inr (by decide))⟩)).1⟩

end ArtaleBG
